import Mathlib

/-!
# Verification of the photo-manager web application

Shallow embedding of `app.py` (Flask photo manager): the relational state
(users / projects / photos tables) together with the uploads directory tree,
and the request handlers that the specification talks about.

Conventions of the embedding:
* SQLite rows become structures; nullable columns become `Option`.
* The uploads tree is a set of relative paths, `String → Bool`.
* `int(time.time())` is modelled by a `now : Nat` parameter (one clock
  reading per request).
* A filesystem move that raises an OS error is modelled by an explicit
  boolean oracle (`panics` / `moveFails`); the Python code either swallows
  or surfaces such errors, and both behaviours are reproduced.
* Python string functions (`str.strip`, `str.lower`, `re.sub(r"\s+", ...)`,
  `os.path.basename`, `pathlib.Path.suffix`, werkzeug's `secure_filename`)
  are reproduced character by character over `List Char`; whitespace and
  lower-casing are the ASCII fragments (the app only feeds the non-ASCII
  part of those functions into filters that discard it).
-/

/-! ## Python string primitives -/

/-- ASCII/latin whitespace test used to model Python's `\s` and `str.strip`. -/
def isPySpace (c : Char) : Bool := c.isWhitespace

/-- `str.strip()` on the character list. -/
def stripWsBoth (l : List Char) : List Char :=
  ((l.dropWhile isPySpace).reverse.dropWhile isPySpace).reverse

/-- `str.strip()` on strings. -/
def pyStrip (s : String) : String := ⟨stripWsBoth s.data⟩

/-- Helper for `re.sub(r"\s+", "_", s)`: the flag records whether the
previous character was whitespace (so a run contributes one underscore). -/
def squashWsAux : Bool → List Char → List Char
  | _, [] => []
  | prevWs, c :: rest =>
    if isPySpace c then
      if prevWs then squashWsAux true rest
      else '_' :: squashWsAux true rest
    else c :: squashWsAux false rest

/-- `re.sub(r"\s+", "_", s)`: every maximal whitespace run becomes `'_'`. -/
def squashWs (l : List Char) : List Char := squashWsAux false l

/-- Characters kept by `re.sub(r"[^a-z0-9_\-]", "", s)`. -/
def isSlugChar (c : Char) : Bool :=
  ('a' ≤ c && c ≤ 'z') || ('0' ≤ c && c ≤ '9') || c == '_' || c == '-'

/-- The normalisation pipeline of `slugify` before the final
truncation/fallback: strip, lower-case, whitespace runs to `'_'`,
drop characters outside `[a-z0-9_-]`. -/
def slugNorm (name : String) : List Char :=
  (squashWs ((stripWsBoth name.data).map Char.toLower)).filter isSlugChar

/-- `slugify` from `app.py`:
`name.strip().lower()`, `re.sub(r"\s+", "_", ...)`,
`re.sub(r"[^a-z0-9_\-]", "", ...)`, then `name[:60] if name else "proyecto"`. -/
def slugify (name : String) : String :=
  let l := slugNorm name
  if l.isEmpty then "proyecto" else ⟨l.take 60⟩

/-- `os.path.basename`: the part after the last `'/'`. -/
def pyBasename (s : String) : String :=
  ⟨(s.data.reverse.takeWhile (fun c => !(c == '/'))).reverse⟩

/-- `pathlib.Path(s).suffix`: the extension of the final component,
empty when the last dot is the first character or the last character. -/
def pySuffix (s : String) : String :=
  let nm := (pyBasename s).data
  if nm.contains '.' then
    let after := (nm.reverse.takeWhile (fun c => !(c == '.'))).reverse
    let i := nm.length - after.length - 1
    if 0 < i ∧ i < nm.length - 1 then ⟨'.' :: after⟩ else ""
  else ""

/-- `Path(name).suffix.lower().lstrip(".")` from the upload handler. -/
def extOf (s : String) : String :=
  ⟨((pySuffix s).data.map Char.toLower).dropWhile (fun c => c == '.')⟩

/-- `str.strip("_")`. -/
def stripUnderscore (l : List Char) : List Char :=
  ((l.dropWhile (fun c => c == '_')).reverse.dropWhile (fun c => c == '_')).reverse

/-- `str.strip("._")`. -/
def stripDotUnd (l : List Char) : List Char :=
  ((l.dropWhile (fun c => c == '.' || c == '_')).reverse.dropWhile
      (fun c => c == '.' || c == '_')).reverse

/-- werkzeug's `secure_filename` (POSIX branch): NFKD + ASCII-ignore
(modelled as keeping the ASCII characters), path separators to spaces,
`"_".join(s.split())`, keep `[A-Za-z0-9_.-]`, strip `"._"`. -/
def secure_filename (s : String) : String :=
  let ascii := s.data.filter (fun c => c.toNat < 128)
  let nosep := ascii.map (fun c => if c == '/' then ' ' else c)
  let joined := squashWs (stripWsBoth nosep)
  let kept := joined.filter
      (fun c => c.isAlpha || c.isDigit || c == '_' || c == '.' || c == '-')
  ⟨stripDotUnd kept⟩

/-- `secure_filename(display_name).strip("_").lower()` with the
`f"foto_{int(time.time())}"` fallback, shared by the upload and
edit-photo handlers. -/
def deriveBase (displayName : String) (now : Nat) : String :=
  let b : String := ⟨(stripUnderscore (secure_filename displayName).data).map Char.toLower⟩
  if b = "" then "foto_" ++ Nat.repr now else b

/-- ASCII lower-casing of a whole string (SQLite `LIKE` folding, and the
model of `str.lower()` in comparisons). -/
def lowerStr (s : String) : String := ⟨s.data.map Char.toLower⟩

/-! ## Decimal representation facts

`admin_create_project` disambiguates slugs with `f"{base}_{i}"`; proving
that this loop really escapes needs that distinct counters give distinct
strings, i.e. injectivity of `Nat.repr`. -/

/-- Structural recursion computing the decimal digit characters of `n`
(most significant first); shown below to agree with `Nat.repr`. -/
def reprDigits (n : Nat) : List Char :=
  if _h : n < 10 then [Nat.digitChar n]
  else reprDigits (n / 10) ++ [Nat.digitChar (n % 10)]
decreasing_by exact Nat.div_lt_self (by omega) (by omega)

theorem reprDigits_lt (n : Nat) (h : n < 10) : reprDigits n = [Nat.digitChar n] := by
  rw [reprDigits]; simp [h]

theorem reprDigits_ge (n : Nat) (h : ¬ n < 10) :
    reprDigits n = reprDigits (n / 10) ++ [Nat.digitChar (n % 10)] := by
  rw [reprDigits]; simp [h]

theorem reprDigits_ne_nil (n : Nat) : reprDigits n ≠ [] := by
  by_cases h : n < 10
  · rw [reprDigits_lt n h]; simp
  · rw [reprDigits_ge n h]; simp

theorem toDigitsCore_succ (b fuel n : Nat) (ds : List Char) :
    Nat.toDigitsCore b (fuel + 1) n ds =
      if n / b = 0 then Nat.digitChar (n % b) :: ds
      else Nat.toDigitsCore b fuel (n / b) (Nat.digitChar (n % b) :: ds) := rfl

theorem toDigitsCore_spec :
    ∀ (fuel n : Nat) (ds : List Char), n < 10 ^ (fuel + 1) →
      Nat.toDigitsCore 10 (fuel + 1) n ds = reprDigits n ++ ds := by
  intro fuel
  induction fuel with
  | zero =>
    intro n ds h
    have hn : n < 10 := by simpa using h
    have hdiv : n / 10 = 0 := Nat.div_eq_of_lt hn
    have hmod : n % 10 = n := Nat.mod_eq_of_lt hn
    rw [toDigitsCore_succ, if_pos hdiv, hmod, reprDigits_lt n hn]
    simp
  | succ fuel ih =>
    intro n ds h
    by_cases hdiv : n / 10 = 0
    · have hn : n < 10 := by omega
      have hmod : n % 10 = n := Nat.mod_eq_of_lt hn
      rw [toDigitsCore_succ, if_pos hdiv, hmod, reprDigits_lt n hn]
      simp
    · have hn : ¬ n < 10 := by
        intro hlt
        exact hdiv (Nat.div_eq_of_lt hlt)
      have hstep : n / 10 < 10 ^ (fuel + 1) := by
        apply (Nat.div_lt_iff_lt_mul (by omega : 0 < 10)).2
        calc n < 10 ^ (fuel + 1 + 1) := h
          _ = 10 ^ (fuel + 1) * 10 := by ring
      rw [toDigitsCore_succ, if_neg hdiv, ih (n / 10) (Nat.digitChar (n % 10) :: ds) hstep,
        reprDigits_ge n hn]
      simp

theorem repr_eq_reprDigits (n : Nat) : Nat.repr n = (reprDigits n).asString := by
  have hfuel : n < 10 ^ (n + 1) := by
    calc n < 2 ^ n := Nat.lt_two_pow n
      _ ≤ 10 ^ n := Nat.pow_le_pow_left (by omega) n
      _ ≤ 10 ^ (n + 1) := Nat.pow_le_pow_right (by omega) (by omega)
  show (Nat.toDigits 10 n).asString = (reprDigits n).asString
  unfold Nat.toDigits
  rw [toDigitsCore_spec n n [] hfuel]
  simp

theorem digitChar_inj :
    ∀ a, a < 10 → ∀ b, b < 10 → Nat.digitChar a = Nat.digitChar b → a = b := by
  decide

theorem reprDigits_inj : ∀ m n : Nat, reprDigits m = reprDigits n → m = n := by
  intro m
  induction m using Nat.strong_induction_on with
  | _ m ih =>
    intro n heq
    by_cases hm : m < 10
    · by_cases hn : n < 10
      · rw [reprDigits_lt m hm, reprDigits_lt n hn] at heq
        simp at heq
        exact digitChar_inj m hm n hn heq
      · exfalso
        rw [reprDigits_lt m hm, reprDigits_ge n hn] at heq
        have hlen := congrArg List.length heq
        simp at hlen
        exact reprDigits_ne_nil (n / 10) hlen
    · by_cases hn : n < 10
      · exfalso
        rw [reprDigits_ge m hm, reprDigits_lt n hn] at heq
        have hlen := congrArg List.length heq
        simp at hlen
        exact reprDigits_ne_nil (m / 10) hlen
      · rw [reprDigits_ge m hm, reprDigits_ge n hn] at heq
        have hrev := congrArg List.reverse heq
        simp at hrev
        obtain ⟨hdig, htail⟩ := hrev
        have hdivs : m / 10 = n / 10 :=
          ih (m / 10) (Nat.div_lt_self (by omega) (by omega)) _ htail
        have hmods : m % 10 = n % 10 :=
          digitChar_inj (m % 10) (Nat.mod_lt _ (by omega)) (n % 10)
            (Nat.mod_lt _ (by omega)) hdig
        omega

theorem repr_inj_nat : ∀ m n : Nat, Nat.repr m = Nat.repr n → m = n := by
  intro m n h
  rw [repr_eq_reprDigits, repr_eq_reprDigits] at h
  apply reprDigits_inj
  have : (reprDigits m).asString.data = (reprDigits n).asString.data := by rw [h]
  simpa [List.asString] using this

theorem repr_ne_empty (n : Nat) : Nat.repr n ≠ "" := by
  rw [repr_eq_reprDigits]
  intro h
  have : (reprDigits n).asString.data = ("" : String).data := by rw [h]
  simp [List.asString] at this
  exact reprDigits_ne_nil n this

/-! ## Data model

The three SQLite tables of `app.py` (`users`, `projects`, `photos`) and the
uploads directory tree.  Nullable columns are `Option`; the tree is the set
of relative paths that currently hold a file.  Directories are not tracked:
every `mkdir(parents=True, exist_ok=True)` in the handlers is a no-op here. -/

structure User where
  id : Nat
  username : String
  password_hash : String
  is_admin : Bool
deriving Repr, DecidableEq

structure Project where
  id : Nat
  name : String
  slug : String
  created_at : String
  description : Option String
  status : String
deriving Repr, DecidableEq

structure Photo where
  id : Nat
  filepath : Option String
  filename : Option String
  display_name : String
  description : Option String
  uploaded_at : String
  uploaded_by : Option Nat
  project_id : Option Nat
deriving Repr, DecidableEq

/-- The uploads tree as the set of relative paths that hold a file. -/
abbrev FileSet := String → Bool

structure AppState where
  users : List User
  projects : List Project
  photos : List Photo
  fs : FileSet

/-- Result of a request handler: flash category `success` or `error`
(every handler of interest redirects afterwards). -/
inductive Outcome where
  | success (msg : String)
  | failure (msg : String)
deriving Repr, DecidableEq

def Outcome.isErr : Outcome → Bool
  | .success _ => false
  | .failure _ => true

/-- `Path.replace`: the destination is (over)written, the source removed
(a move of a path onto itself leaves the file in place). -/
def fsMove (fs : FileSet) (src dst : String) : FileSet :=
  fun p => if p = dst then true else if p = src then false else fs p

/-- `file.save(path)`. -/
def fsAdd (fs : FileSet) (p0 : String) : FileSet :=
  fun p => if p = p0 then true else fs p

/-- `path.unlink()`. -/
def fsRemove (fs : FileSet) (p0 : String) : FileSet :=
  fun p => if p = p0 then false else fs p

/-- `SELECT ... FROM projects WHERE id = ? ... fetchone()`. -/
def findProject (ps : List Project) (pid : Nat) : Option Project :=
  ps.find? (fun p => p.id == pid)

/-- `SELECT ... FROM projects WHERE slug = ? ... fetchone()`. -/
def findProjectBySlug (ps : List Project) (slug : String) : Option Project :=
  ps.find? (fun p => p.slug == slug)

/-- `SELECT ... FROM photos WHERE id = ? ... fetchone()`. -/
def findPhoto (ps : List Photo) (pid : Nat) : Option Photo :=
  ps.find? (fun p => p.id == pid)

/-- `SELECT ... FROM users WHERE id = ? ... fetchone()`. -/
def findUser (us : List User) (uid : Nat) : Option User :=
  us.find? (fun u => u.id == uid)

/-! ## Handlers -/

/-- The default-project half of `ensure_admin_and_default_project`: insert
the `General` row when no project with slug `general` exists (`newId` is
the AUTOINCREMENT id SQLite would assign). -/
def ensureDefaultProject (newId : Nat) (projects : List Project) : List Project :=
  match findProjectBySlug projects "general" with
  | some _ => projects
  | none => projects ++
      [{ id := newId, name := "General", slug := "general", created_at := "",
         description := some "Proyecto por defecto", status := "pendiente" }]

/-- `admin_delete_user`, body of the route (the admin guard is separate):
`currentId` is `current_user.id`. -/
def admin_delete_user (currentId targetId : Nat) (st : AppState) : Outcome × AppState :=
  if currentId = targetId then
    (.failure "No puedes eliminar tu propio usuario.", st)
  else
    match findUser st.users targetId with
    | none => (.failure "Usuario no encontrado.", st)
    | some target =>
      if target.is_admin ∧ (st.users.filter (fun u => u.is_admin)).length ≤ 1 then
        (.failure "No puedes eliminar el último administrador.", st)
      else
        (.success "Usuario eliminado.",
          { st with
            photos := st.photos.map (fun ph =>
              if ph.uploaded_by == some targetId then { ph with uploaded_by := none } else ph),
            users := st.users.filter (fun u => !(u.id == targetId)) })

/-- `f"{base}_{i}"`. -/
def slugCandidate (base : String) (i : Nat) : String := base ++ "_" ++ Nat.repr i

/-- The `while` slug-collision loop of `admin_create_project`.  The Python
loop is unbounded; `existing.length + 1` steps always escape (proved
below), so the explicit fuel is only a way to write the same loop. -/
def slugLoop (existing : List String) (base : String) : Nat → String → Nat → String
  | 0, slug, _ => slug
  | fuel + 1, slug, i =>
    if existing.contains slug then slugLoop existing base fuel (slugCandidate base i) (i + 1)
    else slug

def freshSlug (existing : List String) (base : String) : String :=
  slugLoop existing base (existing.length + 1) base 2

/-- `admin_create_project` body: validates the name, uniquifies the slug,
inserts unless the UNIQUE name constraint fires (`sqlite3.IntegrityError`). -/
def admin_create_project (rawName rawDescription rawStatus : String) (newId : Nat)
    (st : AppState) : Outcome × AppState :=
  let name := pyStrip rawName
  let description := pyStrip rawDescription
  let status := pyStrip rawStatus
  if name = "" then (.failure "El nombre del proyecto es obligatorio.", st)
  else
    let slug := freshSlug (st.projects.map Project.slug) (slugify name)
    if st.projects.any (fun p => p.name == name) then
      (.failure "Ese proyecto ya existe.", st)
    else
      (.success "Proyecto creado.",
        { st with projects := st.projects ++
            [{ id := newId, name := name, slug := slug, created_at := "",
               description := some description, status := status }] })

/-- `old_fp` at the head of the per-photo loop of `admin_delete_project`:
the stripped `filepath` when that is truthy, else `<slug>/<filename>` when
`filename` is truthy, else `""`. -/
def photoOldFp (projSlug : String) (ph : Photo) : String :=
  let fp0 := match ph.filepath with
    | some s => if s ≠ "" then pyStrip s else ""
    | none => ""
  if fp0 = "" then
    match ph.filename with
    | some fn => if fn ≠ "" then projSlug ++ "/" ++ fn else ""
    | none => ""
  else fp0

/-- `old_name = os.path.basename(old_fp) if old_fp else (ph["filename"] or
f"{int(time.time())}.jpg")`. -/
def photoOldName (projSlug : String) (now : Nat) (ph : Photo) : String :=
  let old_fp := photoOldFp projSlug ph
  if old_fp ≠ "" then pyBasename old_fp
  else match ph.filename with
    | some fn => if fn ≠ "" then fn else Nat.repr now ++ ".jpg"
    | none => Nat.repr now ++ ".jpg"

/-- One iteration of the photo loop in `admin_delete_project`: the
`new_fp` that will be written to the row, and the filesystem after the
best-effort move.  `panics` is true when `Path.replace` raises; the
handler swallows the exception, so the filesystem stays as it was but the
row is rewritten with the already-computed `new_fp` regardless. -/
def relocatePhoto (projSlug : String) (now : Nat) (panics : Bool) (fs : FileSet) (ph : Photo) :
    String × FileSet :=
  let old_fp := photoOldFp projSlug ph
  let old_name := photoOldName projSlug now ph
  let new_fp0 := "general/" ++ old_name
  if old_fp ≠ "" ∧ fs old_fp then
    let new_fp := if fs new_fp0 then "general/" ++ Nat.repr now ++ "_" ++ old_name else new_fp0
    if panics then (new_fp, fs) else (new_fp, fsMove fs old_fp new_fp)
  else (new_fp0, fs)

/-- `UPDATE photos SET project_id = ?, filepath = ?, filename = ? WHERE id = ?`
with the values of the relocation loop. -/
def relocateRow (generalId : Nat) (new_fp : String) (ph : Photo) : Photo :=
  { ph with
    project_id := some generalId, filepath := some new_fp,
    filename := some (pyBasename new_fp) }

/-- The `for ph in photos:` loop of `admin_delete_project`, threading the
photos table and the filesystem. -/
def deleteProjectLoop (projSlug : String) (generalId now : Nat) (panics : Nat → Bool) :
    List Photo → List Photo × FileSet → List Photo × FileSet
  | [], acc => acc
  | ph :: rest, acc =>
    let r := relocatePhoto projSlug now (panics ph.id) acc.2 ph
    deleteProjectLoop projSlug generalId now panics rest
      (acc.1.map (fun p => if p.id = ph.id then relocateRow generalId r.1 p else p), r.2)

/-- `admin_delete_project` body (admin guard separate).  `panics ph.id`
says whether the move of photo `ph` raises an OS error. -/
def admin_delete_project (projectId now : Nat) (panics : Nat → Bool) (st : AppState) :
    Outcome × AppState :=
  match findProject st.projects projectId with
  | none => (.failure "Proyecto no encontrado.", st)
  | some proj =>
    if proj.slug = "general" then
      (.failure "No se puede eliminar el proyecto General.", st)
    else
      match findProjectBySlug st.projects "general" with
      | none => (.failure "No existe el proyecto General.", st)
      | some general =>
        let targets := st.photos.filter (fun ph => ph.project_id == some projectId)
        let res := deleteProjectLoop proj.slug general.id now panics targets (st.photos, st.fs)
        (.success "Proyecto eliminado. Las fotos se movieron a General.",
          { st with
            projects := st.projects.filter (fun p => !(p.id == projectId)),
            photos := res.1, fs := res.2 })

def ALLOWED_EXTENSIONS : List String := ["png", "jpg", "jpeg", "webp"]

/-- The POST form of `/upload`: `file` is the client filename of the
uploaded file (`none` when no file was sent or its name is empty),
`project_id` is `none` when the field is empty. -/
structure UploadForm where
  file : Option String
  display_name : String
  description : String
  project_id : Option Nat

/-- `upload` POST body (the `upload_required` guard is separate).
`uploaderId` is `current_user.id`, `newId` the AUTOINCREMENT id,
`uploadedAt` the DB-assigned `datetime('now','localtime')` string. -/
def upload (form : UploadForm) (uploaderId newId now : Nat) (uploadedAt : String)
    (st : AppState) : Outcome × AppState :=
  let display_name := pyStrip form.display_name
  let description := pyStrip form.description
  match form.project_id with
  | none => (.failure "Selecciona un proyecto.", st)
  | some pid =>
    match findProject st.projects pid with
    | none => (.failure "Proyecto inválido.", st)
    | some proj =>
      match form.file with
      | none => (.failure "Selecciona una imagen.", st)
      | some original_name =>
        if display_name = "" then (.failure "El nombre/código es obligatorio.", st)
        else
          let ext := extOf original_name
          if ¬ ALLOWED_EXTENSIONS.contains ext then
            (.failure "Formato no permitido. Usa JPG/PNG/WEBP.", st)
          else
            let base := deriveBase display_name now
            let final_name := base ++ "_" ++ Nat.repr now ++ "." ++ ext
            let filepath := proj.slug ++ "/" ++ final_name
            (.success "Imagen subida correctamente.",
              { st with
                fs := fsAdd st.fs filepath,
                photos := st.photos ++
                  [{ id := newId, filepath := some filepath, filename := some final_name,
                     display_name := display_name, description := some description,
                     uploaded_at := uploadedAt, uploaded_by := some uploaderId,
                     project_id := some pid }] })

/-- `get_photo_filepath` from `app.py`: prefer the stripped `filepath`,
else `general/<filename>`, else `""`. -/
def get_photo_filepath (ph : Photo) : String :=
  let fp := pyStrip (ph.filepath.getD "")
  let fn := pyStrip (ph.filename.getD "")
  if fp ≠ "" then fp
  else if fn ≠ "" then "general/" ++ fn
  else ""

/-- `str(photo["project_id"] or "")` (`0` is falsy in Python; SQLite
AUTOINCREMENT ids start at 1). -/
def oldProjectIdStr (ph : Photo) : String :=
  match ph.project_id with
  | none => ""
  | some n => if n = 0 then "" else Nat.repr n

structure EditPhotoForm where
  display_name : String
  description : String
  project_id : Option Nat

/-- `old_filename` local of `edit_photo`:
`os.path.basename(old_fp) if old_fp else (photo["filename"] or "")`. -/
def editOldFilename (photo : Photo) : String :=
  if get_photo_filepath photo ≠ "" then pyBasename (get_photo_filepath photo)
  else photo.filename.getD ""

/-- `ext` local of `edit_photo`: extension of the old filename with the
`jpg` fallback when not in the allowed set. -/
def editExt (photo : Photo) : String :=
  if ¬ ALLOWED_EXTENSIONS.contains (extOf (editOldFilename photo)) then "jpg"
  else extOf (editOldFilename photo)

/-- `f"{base}_{int(time.time())}.{ext}"` with
`base = secure_filename(new_display_name).strip("_").lower()` (or the
timestamp fallback): the name derived from the new display name. -/
def editDerivedName (photo : Photo) (newName : String) (now : Nat) : String :=
  deriveBase newName now ++ "_" ++ Nat.repr now ++ "." ++ editExt photo

/-- `new_filename` before the collision check: regenerated from the new
display name when the case-insensitive compare says the name changed,
otherwise the old filename. -/
def editNewFilename0 (photo : Photo) (newName : String) (now : Nat) : String :=
  if lowerStr (pyStrip photo.display_name) ≠ lowerStr newName then
    editDerivedName photo newName now
  else editOldFilename photo

/-- The row written by `UPDATE photos SET display_name = ?, description = ?,
project_id = ?, filepath = ?, filename = ? WHERE id = ?`. -/
def editUpdateRow (newName newDesc : String) (newPid : Nat) (fp fn : String)
    (p : Photo) : Photo :=
  { p with
    display_name := newName, description := some newDesc,
    project_id := some newPid, filepath := some fp, filename := some fn }

/-- `edit_photo` POST body (admin guard separate).  `moveFails` is true
when `Path.replace` would raise; the handler then aborts before the
UPDATE and surfaces the error.  When the source file is missing the
handler warns and reuses the old path fields, but still runs the UPDATE. -/
def edit_photo (photoId : Nat) (form : EditPhotoForm) (now : Nat) (moveFails : Bool)
    (st : AppState) : Outcome × AppState :=
  match findPhoto st.photos photoId with
  | none => (.failure "Foto no encontrada.", st)
  | some photo =>
    let new_display_name := pyStrip form.display_name
    let new_description := pyStrip form.description
    if new_display_name = "" then (.failure "El nombre/código es obligatorio.", st)
    else
      match form.project_id with
      | none => (.failure "Selecciona un proyecto.", st)
      | some newPid =>
        match findProject st.projects newPid with
        | none => (.failure "Proyecto inválido.", st)
        | some new_proj =>
          let old_fp := get_photo_filepath photo
          let project_changed := oldProjectIdStr photo ≠ Nat.repr newPid
          let name_changed := lowerStr (pyStrip photo.display_name) ≠ lowerStr new_display_name
          let new_filename0 := editNewFilename0 photo new_display_name now
          let new_fp0 := new_proj.slug ++ "/" ++ new_filename0
          let upd := fun (fp fn : String) (fs' : FileSet) =>
            (Outcome.success "Foto actualizada.",
              { st with
                fs := fs',
                photos := st.photos.map (fun p =>
                  if p.id = photoId then
                    editUpdateRow new_display_name new_description newPid fp fn p
                  else p) })
          if project_changed ∨ name_changed then
            if old_fp ≠ "" ∧ st.fs old_fp then
              let new_filename :=
                if st.fs new_fp0 then editDerivedName photo new_display_name now
                else new_filename0
              let new_fp := if st.fs new_fp0 then new_proj.slug ++ "/" ++ new_filename
                else new_fp0
              if moveFails then
                (.failure "No se pudo mover/renombrar el archivo.", st)
              else upd new_fp new_filename (fsMove st.fs old_fp new_fp)
            else
              -- "Aviso: no se encontró el archivo físico..." is flashed, yet
              -- the UPDATE still runs with the old path fields.
              upd old_fp (editOldFilename photo) st.fs
          else upd new_fp0 new_filename0 st.fs

/-- `delete_photo` POST body (admin guard separate): best-effort unlink,
unconditional row delete. -/
def delete_photo (photoId : Nat) (st : AppState) : Outcome × AppState :=
  match findPhoto st.photos photoId with
  | none => (.failure "Foto no encontrada.", st)
  | some photo =>
    let fp := get_photo_filepath photo
    let fs' := if fp ≠ "" ∧ st.fs fp then fsRemove st.fs fp else st.fs
    (.success "Foto eliminada.",
      { st with photos := st.photos.filter (fun p => !(p.id == photoId)), fs := fs' })

/-! ## Authorization guards -/

/-- `admin_required`: a logged-in principal that is not an administrator is
flashed an error and redirected with no handler body run. -/
def admin_required (u : User) (handler : AppState → Outcome × AppState) (st : AppState) :
    Outcome × AppState :=
  if u.is_admin then handler st else (.failure "Acceso solo para administradores.", st)

/-- `upload_required`: same admin check, different message. -/
def upload_required (u : User) (handler : AppState → Outcome × AppState) (st : AppState) :
    Outcome × AppState :=
  if u.is_admin then handler st
  else (.failure "No tienes permisos para subir imágenes.", st)

def upload_route (u : User) (form : UploadForm) (newId now : Nat) (uploadedAt : String)
    (st : AppState) : Outcome × AppState :=
  upload_required u (upload form u.id newId now uploadedAt) st

def edit_photo_route (u : User) (photoId : Nat) (form : EditPhotoForm) (now : Nat)
    (moveFails : Bool) (st : AppState) : Outcome × AppState :=
  admin_required u (edit_photo photoId form now moveFails) st

def delete_photo_route (u : User) (photoId : Nat) (st : AppState) : Outcome × AppState :=
  admin_required u (delete_photo photoId) st

/-! ## Dashboard search -/

/-- SQLite `LIKE` (no ESCAPE clause): `%` matches any sequence, `_` any
single character, other characters compare ASCII-case-insensitively. -/
def likeMatch : List Char → List Char → Bool
  | [], s => s.isEmpty
  | p :: ps, s =>
    if p == '%' then
      likeMatch ps s ||
        (match s with
         | [] => false
         | _ :: s' => likeMatch (p :: ps) s')
    else
      match s with
      | [] => false
      | c :: s' =>
        if p == '_' then likeMatch ps s'
        else (p.toLower == c.toLower) && likeMatch ps s'
termination_by p s => (s.length, p.length)

/-- SQLite `date(x)` on the canonical `YYYY-MM-DD HH:MM:SS` strings that
`datetime('now','localtime')` produces: the calendar-day prefix. -/
def sqlDate (s : String) : String := ⟨s.data.take 10⟩

/-- The conjunctive WHERE clause the dashboard builds from the non-empty
filters (`LIKE '%q%'` on display name or description, `project_id = ?`,
`date(uploaded_at)` bounds). -/
def dashboardWhere (q : String) (project_id : Option Nat) (date_from date_to : String)
    (ph : Photo) : Bool :=
  (q == "" ||
    (likeMatch ('%' :: q.data ++ ['%']) ph.display_name.data ||
      (match ph.description with
       | none => false
       | some d => likeMatch ('%' :: q.data ++ ['%']) d.data))) &&
  (match project_id with
   | none => true
   | some pid => ph.project_id == some pid) &&
  (date_from == "" || decide (sqlDate date_from ≤ sqlDate ph.uploaded_at)) &&
  (date_to == "" || decide (sqlDate ph.uploaded_at ≤ sqlDate date_to))

/-- Insertion step of the model of `ORDER BY p.id DESC`. -/
def insertByIdDesc (ph : Photo) : List Photo → List Photo
  | [] => [ph]
  | q :: rest => if q.id ≤ ph.id then ph :: q :: rest else q :: insertByIdDesc ph rest

def sortByIdDesc (l : List Photo) : List Photo := l.foldr insertByIdDesc []

/-- The `/dashboard` listing: strip the four query parameters, keep the
photos passing the conjunctive WHERE clause, newest id first. -/
def dashboard (rawQ : String) (project_id : Option Nat) (rawFrom rawTo : String)
    (st : AppState) : List Photo :=
  sortByIdDesc (st.photos.filter
    (dashboardWhere (pyStrip rawQ) project_id (pyStrip rawFrom) (pyStrip rawTo)))

/-! ## Specification-side search predicate

The spec describes the text filter as a *case-insensitive substring
match*; the code runs `LIKE '%q%'`.  The following definitions follow the
spec's words and are compared with `dashboardWhere` for queries without
`LIKE` wildcards. -/

/-- `needle` is a prefix of `hay` (character-exact). -/
def startsList : List Char → List Char → Bool
  | [], _ => true
  | _ :: _, [] => false
  | a :: l1, b :: l2 => a == b && startsList l1 l2

/-- `needle` occurs as a contiguous substring of `hay`. -/
def hasSub (needle : List Char) : List Char → Bool
  | [] => needle.isEmpty
  | c :: rest => startsList needle (c :: rest) || hasSub needle rest

/-- Modelled from the spec: conjunctive optional filters — case-insensitive
substring match of the query against display name OR description, exact
project-id match, inclusive calendar-day bounds on the upload timestamp. -/
def specWhere (q : String) (project_id : Option Nat) (date_from date_to : String)
    (ph : Photo) : Bool :=
  (q == "" ||
    (hasSub (lowerStr q).data (lowerStr ph.display_name).data ||
      (match ph.description with
       | none => false
       | some d => hasSub (lowerStr q).data (lowerStr d).data))) &&
  (match project_id with
   | none => true
   | some pid => ph.project_id == some pid) &&
  (date_from == "" || decide (sqlDate date_from ≤ sqlDate ph.uploaded_at)) &&
  (date_to == "" || decide (sqlDate ph.uploaded_at ≤ sqlDate date_to))

/-- The query has no `LIKE` metacharacters. -/
def noWildcard (q : String) : Bool :=
  q.data.all (fun c => !(c == '%') && !(c == '_'))

/-! ## Claim C10: shape of `slugify` output -/

/-- C10: for every input string, `slugify` returns a non-empty string of at
most 60 characters drawn only from lowercase letters, digits, underscore
and hyphen; when the normalisation yields the empty string the fixed
fallback slug `proyecto` is returned. -/
theorem slugify_props (name : String) :
    slugify name ≠ "" ∧ (slugify name).length ≤ 60 ∧
    ((slugify name).data.all isSlugChar = true) ∧
    (slugNorm name = [] → slugify name = "proyecto") := by
  by_cases h : (slugNorm name).isEmpty
  · have hs : slugify name = "proyecto" := by unfold slugify; simp [h]
    rw [hs]
    exact ⟨by decide, by decide, by decide, fun _ => rfl⟩
  · have hs : slugify name = ⟨(slugNorm name).take 60⟩ := by unfold slugify; simp [h]
    have hne : slugNorm name ≠ [] := by simpa [List.isEmpty_iff] using h
    refine ⟨?_, ?_, ?_, ?_⟩
    · rw [hs]
      intro hcon
      have htake : (slugNorm name).take 60 = [] := by
        have := congrArg String.data hcon
        simpa using this
      rcases List.take_eq_nil_iff.1 htake with h60 | hnil
      · exact absurd h60 (by omega)
      · exact hne hnil
    · rw [hs]
      show ((slugNorm name).take 60).length ≤ 60
      exact List.length_take_le 60 (slugNorm name)
    · rw [hs]
      have hall : ∀ c ∈ (slugNorm name).take 60, isSlugChar c = true := by
        intro c hc
        have hmem : c ∈ slugNorm name := List.mem_of_mem_take hc
        have hmem' : c ∈ (squashWs ((stripWsBoth name.data).map Char.toLower)).filter
            isSlugChar := by simpa [slugNorm] using hmem
        exact List.of_mem_filter hmem'
      simpa [List.all_eq_true] using hall
    · intro hnil; exact absurd hnil hne

theorem slugify_props_witness :
    slugify "Roof A!!" ≠ "" ∧ (slugify "Roof A!!").length ≤ 60 ∧
    ((slugify "Roof A!!").data.all isSlugChar = true) ∧
    (slugNorm "Roof A!!" = [] → slugify "Roof A!!" = "proyecto") :=
  slugify_props "Roof A!!"

/-! ## Claim C2: the default project is seeded with slug `general` and the
delete-project operation refuses it (and missing targets) -/

/-- C2: the seeded default project always has slug `general`
(`ensureDefaultProject` either finds such a row or inserts exactly the
`General` row), and `admin_delete_project` fails without touching any
state both when the target id is missing and when the target is the
project with slug `general`. -/
theorem default_project_undeletable (newId : Nat) (ps : List Project)
    (projectId now : Nat) (panics : Nat → Bool) (st : AppState) :
    (∃ p ∈ ensureDefaultProject newId ps, p.slug = "general") ∧
    (findProjectBySlug ps "general" = none →
      ensureDefaultProject newId ps = ps ++
        [{ id := newId, name := "General", slug := "general", created_at := "",
           description := some "Proyecto por defecto", status := "pendiente" }]) ∧
    (findProject st.projects projectId = none →
      admin_delete_project projectId now panics st =
        (.failure "Proyecto no encontrado.", st)) ∧
    (∀ proj, findProject st.projects projectId = some proj → proj.slug = "general" →
      admin_delete_project projectId now panics st =
        (.failure "No se puede eliminar el proyecto General.", st)) := by
  refine ⟨?_, ?_, ?_, ?_⟩
  · unfold ensureDefaultProject
    cases hfind : findProjectBySlug ps "general" with
    | some p =>
      refine ⟨p, List.mem_of_find?_eq_some hfind, ?_⟩
      have := List.find?_some hfind
      simpa using this
    | none =>
      exact ⟨_, List.mem_append_right _ (List.mem_singleton_self _), rfl⟩
  · intro h
    unfold ensureDefaultProject
    rw [h]
  · intro h
    unfold admin_delete_project
    rw [h]
  · intro proj hfind hslug
    unfold admin_delete_project
    rw [hfind]
    simp [hslug]

theorem default_project_undeletable_witness :
    (∃ p ∈ ensureDefaultProject 1 [], p.slug = "general") ∧
    (findProjectBySlug [] "general" = none →
      ensureDefaultProject 1 [] = [] ++
        [{ id := 1, name := "General", slug := "general", created_at := "",
           description := some "Proyecto por defecto", status := "pendiente" }]) ∧
    (findProject (AppState.mk [] [] [] (fun _ => false)).projects 7 = none →
      admin_delete_project 7 0 (fun _ => false) (AppState.mk [] [] [] (fun _ => false)) =
        (.failure "Proyecto no encontrado.", AppState.mk [] [] [] (fun _ => false))) ∧
    (∀ proj,
      findProject (AppState.mk [] [] [] (fun _ => false)).projects 7 = some proj →
      proj.slug = "general" →
      admin_delete_project 7 0 (fun _ => false) (AppState.mk [] [] [] (fun _ => false)) =
        (.failure "No se puede eliminar el proyecto General.",
          AppState.mk [] [] [] (fun _ => false))) :=
  default_project_undeletable 1 [] 7 0 (fun _ => false) (AppState.mk [] [] [] (fun _ => false))

/-! ## Claim C7: uploads with a disallowed extension are rejected -/

/-- C7: whenever the uploaded file's extension (lower-cased by `extOf`) is
not in `{png, jpg, jpeg, webp}` — e.g. `.gif` — the upload handler returns
an error flash and leaves both the photos table and the uploads tree
exactly as they were (the state is returned untouched). -/
theorem upload_rejects_bad_extension (form : UploadForm) (uploaderId newId now : Nat)
    (uploadedAt : String) (st : AppState)
    (hext : ∀ nm, form.file = some nm → ALLOWED_EXTENSIONS.contains (extOf nm) = false) :
    (upload form uploaderId newId now uploadedAt st).2 = st ∧
    (upload form uploaderId newId now uploadedAt st).1.isErr = true := by
  cases hp : form.project_id with
  | none => unfold upload; simp [hp, Outcome.isErr]
  | some pid =>
    cases hf : findProject st.projects pid with
    | none => unfold upload; simp [hp, hf, Outcome.isErr]
    | some proj =>
      cases hfile : form.file with
      | none => unfold upload; simp [hp, hf, hfile, Outcome.isErr]
      | some nm =>
        have hc : extOf nm ∉ ALLOWED_EXTENSIONS := by simpa using hext nm hfile
        by_cases hdn : pyStrip form.display_name = ""
        · unfold upload; simp [hp, hf, hfile, hdn, Outcome.isErr]
        · unfold upload; simp [hp, hf, hfile, hdn, hc, Outcome.isErr]

theorem upload_rejects_bad_extension_witness :
    (upload (UploadForm.mk (some "x.gif") "Panel 1" "" (some 1)) 1 1 0 ""
      (AppState.mk [] [] [] (fun _ => false))).2 =
      AppState.mk [] [] [] (fun _ => false) ∧
    (upload (UploadForm.mk (some "x.gif") "Panel 1" "" (some 1)) 1 1 0 ""
      (AppState.mk [] [] [] (fun _ => false))).1.isErr = true :=
  upload_rejects_bad_extension (UploadForm.mk (some "x.gif") "Panel 1" "" (some 1)) 1 1 0 ""
    (AppState.mk [] [] [] (fun _ => false))
    (by intro nm h; cases h; decide)

/-! ## Claim C9: the photo-mutating routes demand an administrator -/

/-- C9: the upload, edit-photo and delete-photo routes are wrapped in the
admin guards; a logged-in principal whose `is_admin` flag is false gets
the warning flash back and the state — database and filesystem — is
returned untouched by all three. -/
theorem mutating_routes_require_admin (u : User) (form : UploadForm)
    (eform : EditPhotoForm) (photoId newId now : Nat) (uploadedAt : String)
    (moveFails : Bool) (st : AppState) (hu : u.is_admin = false) :
    upload_route u form newId now uploadedAt st =
      (.failure "No tienes permisos para subir imágenes.", st) ∧
    edit_photo_route u photoId eform now moveFails st =
      (.failure "Acceso solo para administradores.", st) ∧
    delete_photo_route u photoId st =
      (.failure "Acceso solo para administradores.", st) := by
  unfold upload_route edit_photo_route delete_photo_route admin_required upload_required
  simp [hu]

theorem mutating_routes_require_admin_witness :
    upload_route (User.mk 2 "user" "h" false) (UploadForm.mk none "" "" none) 1 0 ""
      (AppState.mk [] [] [] (fun _ => false)) =
      (.failure "No tienes permisos para subir imágenes.",
        AppState.mk [] [] [] (fun _ => false)) ∧
    edit_photo_route (User.mk 2 "user" "h" false) 1 (EditPhotoForm.mk "" "" none) 0 false
      (AppState.mk [] [] [] (fun _ => false)) =
      (.failure "Acceso solo para administradores.",
        AppState.mk [] [] [] (fun _ => false)) ∧
    delete_photo_route (User.mk 2 "user" "h" false) 1
      (AppState.mk [] [] [] (fun _ => false)) =
      (.failure "Acceso solo para administradores.",
        AppState.mk [] [] [] (fun _ => false)) :=
  mutating_routes_require_admin (User.mk 2 "user" "h" false) (UploadForm.mk none "" "" none)
    (EditPhotoForm.mk "" "" none) 1 1 0 "" false (AppState.mk [] [] [] (fun _ => false)) rfl

/-! ## Claim C6: user deletion guards and photo-owner nulling -/

/-- C6: deleting yourself fails with no state change; deleting the last
remaining administrator fails with no state change; a successful deletion
removes only the user row, keeps every photo (same id sequence), and the
photos owned by the deleted user reappear with `uploaded_by` nulled while
all other photos are untouched. -/
theorem delete_user_spec (currentId targetId : Nat) (st : AppState) :
    (currentId = targetId →
      admin_delete_user currentId targetId st =
        (.failure "No puedes eliminar tu propio usuario.", st)) ∧
    (∀ target, currentId ≠ targetId → findUser st.users targetId = some target →
      target.is_admin = true → (st.users.filter (fun u => u.is_admin)).length ≤ 1 →
      admin_delete_user currentId targetId st =
        (.failure "No puedes eliminar el último administrador.", st)) ∧
    (∀ target, currentId ≠ targetId → findUser st.users targetId = some target →
      ¬ (target.is_admin = true ∧ (st.users.filter (fun u => u.is_admin)).length ≤ 1) →
      (admin_delete_user currentId targetId st).1 = .success "Usuario eliminado." ∧
      (admin_delete_user currentId targetId st).2.users =
        st.users.filter (fun u => !(u.id == targetId)) ∧
      (admin_delete_user currentId targetId st).2.photos.map Photo.id =
        st.photos.map Photo.id ∧
      (∀ ph ∈ st.photos, ph.uploaded_by = some targetId →
        { ph with uploaded_by := none } ∈ (admin_delete_user currentId targetId st).2.photos) ∧
      (∀ ph ∈ st.photos, ph.uploaded_by ≠ some targetId →
        ph ∈ (admin_delete_user currentId targetId st).2.photos)) := by
  refine ⟨?_, ?_, ?_⟩
  · intro h
    unfold admin_delete_user
    simp [h]
  · intro target hne hfind hadm hcount
    unfold admin_delete_user
    simp [hne, hfind, hadm, hcount]
  · intro target hne hfind hguard
    have hres : admin_delete_user currentId targetId st =
        (.success "Usuario eliminado.",
          { st with
            photos := st.photos.map (fun ph =>
              if ph.uploaded_by == some targetId then { ph with uploaded_by := none } else ph),
            users := st.users.filter (fun u => !(u.id == targetId)) }) := by
      unfold admin_delete_user
      simp [hne, hfind, hguard]
    rw [hres]
    refine ⟨rfl, rfl, ?_, ?_, ?_⟩
    · rw [List.map_map]
      apply List.map_congr_left
      intro ph _
      by_cases h : ph.uploaded_by = some targetId <;> simp [h]
    · intro ph hmem hown
      exact List.mem_map.2 ⟨ph, hmem, by simp [hown]⟩
    · intro ph hmem hown
      exact List.mem_map.2 ⟨ph, hmem, by simp [hown]⟩

theorem delete_user_spec_witness :
    let stw := AppState.mk
      [User.mk 1 "admin" "h" true, User.mk 2 "bob" "h" false]
      [] [Photo.mk 1 none none "p" none "" (some 2) none] (fun _ => false)
    (1 = 1 →
      admin_delete_user 1 1 stw = (.failure "No puedes eliminar tu propio usuario.", stw)) ∧
    (∀ target, 1 ≠ 2 → findUser stw.users 2 = some target →
      target.is_admin = true → (stw.users.filter (fun u => u.is_admin)).length ≤ 1 →
      admin_delete_user 1 2 stw =
        (.failure "No puedes eliminar el último administrador.", stw)) ∧
    (∀ target, 1 ≠ 2 → findUser stw.users 2 = some target →
      ¬ (target.is_admin = true ∧ (stw.users.filter (fun u => u.is_admin)).length ≤ 1) →
      (admin_delete_user 1 2 stw).1 = .success "Usuario eliminado." ∧
      (admin_delete_user 1 2 stw).2.users = stw.users.filter (fun u => !(u.id == 2)) ∧
      (admin_delete_user 1 2 stw).2.photos.map Photo.id = stw.photos.map Photo.id ∧
      (∀ ph ∈ stw.photos, ph.uploaded_by = some 2 →
        { ph with uploaded_by := none } ∈ (admin_delete_user 1 2 stw).2.photos) ∧
      (∀ ph ∈ stw.photos, ph.uploaded_by ≠ some 2 →
        ph ∈ (admin_delete_user 1 2 stw).2.photos)) := by
  intro stw
  have h1 := (delete_user_spec 1 1 stw).1
  have h23 := delete_user_spec 1 2 stw
  exact ⟨h1, h23.2.1, h23.2.2⟩

/-! ## Helper lemmas about paths and consistent photo rows -/

theorem append_slash_ne_empty (a b : String) : a ++ "/" ++ b ≠ "" := by
  intro h
  have hd := congrArg String.data h
  simp [String.data_append] at hd

theorem takeWhile_append_all {p : Char → Bool} (l1 l2 : List Char)
    (h : ∀ c ∈ l1, p c = true) :
    List.takeWhile p (l1 ++ l2) = l1 ++ List.takeWhile p l2 := by
  induction l1 with
  | nil => simp
  | cons a l1 ih =>
    have ha : p a = true := h a (List.mem_cons_self a l1)
    simp only [List.cons_append, List.takeWhile_cons, ha, if_true]
    rw [ih (fun c hc => h c (List.mem_cons_of_mem a hc))]

theorem pyBasename_append (a b : String) (h : b.data.contains '/' = false) :
    pyBasename (a ++ "/" ++ b) = b := by
  have hmem : '/' ∉ b.data := by simpa using h
  have hall : ∀ c ∈ b.data.reverse, (!(c == '/')) = true := by
    intro c hc
    have hcb : c ∈ b.data := List.mem_reverse.1 hc
    have hne : c ≠ '/' := fun hcc => hmem (hcc ▸ hcb)
    simp [hne]
  unfold pyBasename
  have hd : (a ++ "/" ++ b).data = (a.data ++ ['/']) ++ b.data := by
    simp [String.data_append]
  rw [hd]
  rw [List.reverse_append]
  have : (a.data ++ ['/']).reverse = '/' :: a.data.reverse := by simp
  rw [this]
  rw [takeWhile_append_all b.data.reverse ('/' :: a.data.reverse) hall]
  have : List.takeWhile (fun c => !(c == '/')) ('/' :: a.data.reverse) = [] := by
    simp [List.takeWhile_cons]
  rw [this]
  simp

theorem get_photo_filepath_eq (ph : Photo) (a b : String)
    (hfp : ph.filepath = some (a ++ "/" ++ b))
    (hstrip : pyStrip (a ++ "/" ++ b) = a ++ "/" ++ b) :
    get_photo_filepath ph = a ++ "/" ++ b := by
  unfold get_photo_filepath
  rw [hfp]
  simp only [Option.getD_some]
  rw [hstrip]
  simp [append_slash_ne_empty a b]

theorem oldProjectIdStr_some (ph : Photo) (pid : Nat)
    (h : ph.project_id = some pid) (h0 : pid ≠ 0) :
    oldProjectIdStr ph = Nat.repr pid := by
  unfold oldProjectIdStr
  rw [h]
  simp [h0]

/-! ## Claim C4: a failing move aborts the whole edit -/

/-- C4: when the edit-photo handler attempts the physical move/rename
(project or display name changed, source file present) and `Path.replace`
raises, the handler returns the error flash and the state — every field of
the photo row, and the filesystem — is exactly the input state. -/
theorem edit_photo_move_error_aborts (photoId : Nat) (form : EditPhotoForm) (now : Nat)
    (st : AppState) (photo : Photo) (newPid : Nat) (new_proj : Project)
    (h1 : findPhoto st.photos photoId = some photo)
    (h2 : pyStrip form.display_name ≠ "")
    (h3 : form.project_id = some newPid)
    (h4 : findProject st.projects newPid = some new_proj)
    (h5 : oldProjectIdStr photo ≠ Nat.repr newPid ∨
      lowerStr (pyStrip photo.display_name) ≠ lowerStr (pyStrip form.display_name))
    (h6 : get_photo_filepath photo ≠ "")
    (h7 : st.fs (get_photo_filepath photo) = true) :
    edit_photo photoId form now true st =
      (.failure "No se pudo mover/renombrar el archivo.", st) := by
  unfold edit_photo
  simp only [h1, h3, h4]
  simp [h2, h5, h6, h7]

theorem edit_photo_move_error_aborts_witness :
    edit_photo 1 (EditPhotoForm.mk "B" "" (some 1)) 0 true
      (AppState.mk [] [Project.mk 1 "Roof" "roof" "" none "pendiente"]
        [Photo.mk 1 (some "roof/a.jpg") (some "a.jpg") "A" none "" none (some 1)]
        (fun p => p == "roof/a.jpg")) =
      (.failure "No se pudo mover/renombrar el archivo.",
        AppState.mk [] [Project.mk 1 "Roof" "roof" "" none "pendiente"]
          [Photo.mk 1 (some "roof/a.jpg") (some "a.jpg") "A" none "" none (some 1)]
          (fun p => p == "roof/a.jpg")) :=
  edit_photo_move_error_aborts 1 (EditPhotoForm.mk "B" "" (some 1)) 0
    (AppState.mk [] [Project.mk 1 "Roof" "roof" "" none "pendiente"]
      [Photo.mk 1 (some "roof/a.jpg") (some "a.jpg") "A" none "" none (some 1)]
      (fun p => p == "roof/a.jpg"))
    (Photo.mk 1 (some "roof/a.jpg") (some "a.jpg") "A" none "" none (some 1)) 1
    (Project.mk 1 "Roof" "roof" "" none "pendiente")
    (by decide) (by decide) rfl (by decide)
    (Or.inr (by decide)) (by decide) (by decide)

/-! ## Claim C3: renaming moves the file and rewrites both path fields;
a description-only edit touches neither the file nor the path fields -/

/-- C3: on a consistent photo row (`filepath = <slug>/<filename>`, in the
target project), an edit whose display name differs case-insensitively
(`form1`) renames the physical file to the newly derived
`<base>_<now>.<ext>` name (`newName`) and rewrites both `filepath` and
`filename` to it, while an edit that keeps the display name (`form2`,
e.g. only the description changes) leaves the filesystem untouched and
writes back the old `filepath`, `filename` and `project_id` values
(the trailing conjuncts make the preservation explicit). -/
theorem edit_photo_rename_vs_description (st : AppState) (photoId pid now : Nat)
    (form1 form2 : EditPhotoForm) (photo : Photo) (proj : Project)
    (fn newName : String) (mf : Bool)
    (hph : findPhoto st.photos photoId = some photo)
    (hproj : findProject st.projects pid = some proj)
    (hpid0 : pid ≠ 0)
    (hsame : photo.project_id = some pid)
    (hfp : photo.filepath = some (proj.slug ++ "/" ++ fn))
    (hstrip : pyStrip (proj.slug ++ "/" ++ fn) = proj.slug ++ "/" ++ fn)
    (hfn : photo.filename = some fn)
    (hnosl : fn.data.contains '/' = false)
    (hdn1 : pyStrip form1.display_name ≠ "")
    (hsel1 : form1.project_id = some pid)
    (hnm1 : lowerStr (pyStrip photo.display_name) ≠ lowerStr (pyStrip form1.display_name))
    (hname : newName = editDerivedName photo (pyStrip form1.display_name) now)
    (hold : st.fs (proj.slug ++ "/" ++ fn) = true)
    (hdn2 : pyStrip form2.display_name ≠ "")
    (hsel2 : form2.project_id = some pid)
    (hnm2 : lowerStr (pyStrip photo.display_name) = lowerStr (pyStrip form2.display_name)) :
    edit_photo photoId form1 now false st =
      (.success "Foto actualizada.",
        { st with
          photos := st.photos.map (fun p =>
            if p.id = photoId then
              editUpdateRow (pyStrip form1.display_name) (pyStrip form1.description) pid
                (proj.slug ++ "/" ++ newName) newName p
            else p),
          fs := fsMove st.fs (proj.slug ++ "/" ++ fn) (proj.slug ++ "/" ++ newName) }) ∧
    edit_photo photoId form2 now mf st =
      (.success "Foto actualizada.",
        { st with
          photos := st.photos.map (fun p =>
            if p.id = photoId then
              editUpdateRow (pyStrip form2.display_name) (pyStrip form2.description) pid
                (proj.slug ++ "/" ++ fn) fn p
            else p),
          fs := st.fs }) ∧
    (editUpdateRow (pyStrip form2.display_name) (pyStrip form2.description) pid
        (proj.slug ++ "/" ++ fn) fn photo).filepath = photo.filepath ∧
    (editUpdateRow (pyStrip form2.display_name) (pyStrip form2.description) pid
        (proj.slug ++ "/" ++ fn) fn photo).filename = photo.filename ∧
    (editUpdateRow (pyStrip form2.display_name) (pyStrip form2.description) pid
        (proj.slug ++ "/" ++ fn) fn photo).project_id = photo.project_id := by
  have hg := get_photo_filepath_eq photo proj.slug fn hfp hstrip
  have hbn := pyBasename_append proj.slug fn hnosl
  have hpidstr := oldProjectIdStr_some photo pid hsame hpid0
  have hne : proj.slug ++ "/" ++ fn ≠ "" := append_slash_ne_empty _ _
  have hof : editOldFilename photo = fn := by
    unfold editOldFilename
    rw [hg]
    simp [hne, hbn]
  refine ⟨?_, ?_, ?_, ?_, ?_⟩
  · have hnf0 : editNewFilename0 photo (pyStrip form1.display_name) now = newName := by
      unfold editNewFilename0
      simp [hnm1, hname]
    unfold edit_photo
    simp only [hph, hsel1, hproj, hpidstr, hnf0, hg]
    simp [hdn1, hnm1, hne, hold, hname]
  · have hnf0 : editNewFilename0 photo (pyStrip form2.display_name) now = fn := by
      unfold editNewFilename0
      simp [hnm2, hof]
    unfold edit_photo
    simp only [hph, hsel2, hproj, hpidstr, hnf0, hg]
    simp [hdn2, hnm2]
  · simp [editUpdateRow, hfp]
  · simp [editUpdateRow, hfn]
  · simp [editUpdateRow, hsame]

theorem edit_photo_rename_vs_description_witness :
    edit_photo 1 (EditPhotoForm.mk "B" "d1" (some 1)) 5 false
      (AppState.mk [] [Project.mk 1 "Roof" "roof" "" none "pendiente"]
        [Photo.mk 1 (some "roof/a.jpg") (some "a.jpg") "A" none "" none (some 1)]
        (fun p => p == "roof/a.jpg")) =
      (.success "Foto actualizada.",
        { AppState.mk [] [Project.mk 1 "Roof" "roof" "" none "pendiente"]
            [Photo.mk 1 (some "roof/a.jpg") (some "a.jpg") "A" none "" none (some 1)]
            (fun p => p == "roof/a.jpg") with
          photos := [Photo.mk 1 (some "roof/a.jpg") (some "a.jpg") "A" none "" none
            (some 1)].map (fun p =>
            if p.id = 1 then
              editUpdateRow (pyStrip "B") (pyStrip "d1") 1
                ("roof" ++ "/" ++ editDerivedName
                  (Photo.mk 1 (some "roof/a.jpg") (some "a.jpg") "A" none "" none (some 1))
                  (pyStrip "B") 5)
                (editDerivedName
                  (Photo.mk 1 (some "roof/a.jpg") (some "a.jpg") "A" none "" none (some 1))
                  (pyStrip "B") 5) p
            else p),
          fs := fsMove (fun p => p == "roof/a.jpg") ("roof" ++ "/" ++ "a.jpg")
            ("roof" ++ "/" ++ editDerivedName
              (Photo.mk 1 (some "roof/a.jpg") (some "a.jpg") "A" none "" none (some 1))
              (pyStrip "B") 5) }) ∧
    edit_photo 1 (EditPhotoForm.mk "A" "d2" (some 1)) 5 true
      (AppState.mk [] [Project.mk 1 "Roof" "roof" "" none "pendiente"]
        [Photo.mk 1 (some "roof/a.jpg") (some "a.jpg") "A" none "" none (some 1)]
        (fun p => p == "roof/a.jpg")) =
      (.success "Foto actualizada.",
        { AppState.mk [] [Project.mk 1 "Roof" "roof" "" none "pendiente"]
            [Photo.mk 1 (some "roof/a.jpg") (some "a.jpg") "A" none "" none (some 1)]
            (fun p => p == "roof/a.jpg") with
          photos := [Photo.mk 1 (some "roof/a.jpg") (some "a.jpg") "A" none "" none
            (some 1)].map (fun p =>
            if p.id = 1 then
              editUpdateRow (pyStrip "A") (pyStrip "d2") 1 ("roof" ++ "/" ++ "a.jpg")
                "a.jpg" p
            else p),
          fs := (fun p => p == "roof/a.jpg") }) ∧
    (editUpdateRow (pyStrip "A") (pyStrip "d2") 1 ("roof" ++ "/" ++ "a.jpg") "a.jpg"
      (Photo.mk 1 (some "roof/a.jpg") (some "a.jpg") "A" none "" none (some 1))).filepath =
      (Photo.mk 1 (some "roof/a.jpg") (some "a.jpg") "A" none "" none (some 1)).filepath ∧
    (editUpdateRow (pyStrip "A") (pyStrip "d2") 1 ("roof" ++ "/" ++ "a.jpg") "a.jpg"
      (Photo.mk 1 (some "roof/a.jpg") (some "a.jpg") "A" none "" none (some 1))).filename =
      (Photo.mk 1 (some "roof/a.jpg") (some "a.jpg") "A" none "" none (some 1)).filename ∧
    (editUpdateRow (pyStrip "A") (pyStrip "d2") 1 ("roof" ++ "/" ++ "a.jpg") "a.jpg"
      (Photo.mk 1 (some "roof/a.jpg") (some "a.jpg") "A" none "" none (some 1))).project_id =
      (Photo.mk 1 (some "roof/a.jpg") (some "a.jpg") "A" none "" none (some 1)).project_id :=
  edit_photo_rename_vs_description
    (AppState.mk [] [Project.mk 1 "Roof" "roof" "" none "pendiente"]
      [Photo.mk 1 (some "roof/a.jpg") (some "a.jpg") "A" none "" none (some 1)]
      (fun p => p == "roof/a.jpg"))
    1 1 5 (EditPhotoForm.mk "B" "d1" (some 1)) (EditPhotoForm.mk "A" "d2" (some 1))
    (Photo.mk 1 (some "roof/a.jpg") (some "a.jpg") "A" none "" none (some 1))
    (Project.mk 1 "Roof" "roof" "" none "pendiente") "a.jpg"
    (editDerivedName (Photo.mk 1 (some "roof/a.jpg") (some "a.jpg") "A" none "" none (some 1))
      (pyStrip "B") 5) true
    rfl rfl (by decide) rfl (by decide) (by decide) rfl (by decide)
    (by decide) rfl (by decide) rfl (by decide) (by decide) rfl rfl

/-! ## Claim C5: slug derivation and numeric-suffix disambiguation -/

theorem slugCandidate_inj (base : String) {i j : Nat}
    (h : slugCandidate base i = slugCandidate base j) : i = j := by
  unfold slugCandidate at h
  have hd := congrArg String.data h
  simp only [String.data_append, List.append_assoc] at hd
  have h2 := List.append_cancel_left hd
  have h3 := List.append_cancel_left h2
  exact repr_inj_nat i j (String.ext h3)

theorem repr_len_pos (n : Nat) : 0 < (Nat.repr n).length := by
  show 0 < (Nat.repr n).data.length
  cases hd : (Nat.repr n).data with
  | nil => exact absurd (String.ext (hd.trans rfl)) (repr_ne_empty n)
  | cons a l => simp

theorem slugCandidate_ne_base (base : String) (i : Nat) : slugCandidate base i ≠ base := by
  intro h
  have hlen := congrArg String.length h
  unfold slugCandidate at hlen
  have h1 : ("_" : String).length = 1 := rfl
  simp [String.length_append, h1] at hlen
  have := repr_len_pos i
  omega

theorem slugCands_nodup (base : String) (i fuel : Nat) :
    (base :: (List.range' i fuel).map (slugCandidate base)).Nodup := by
  refine List.nodup_cons.2 ⟨?_, ?_⟩
  · intro hmem
    obtain ⟨j, _, hj⟩ := List.mem_map.1 hmem
    exact slugCandidate_ne_base base j hj
  · exact (List.nodup_range' i fuel).map (fun a b h => slugCandidate_inj base h)

theorem contains_imp_mem {E : List String} {s : String} (h : E.contains s = true) :
    s ∈ E := by
  simpa using h

theorem mem_imp_contains {E : List String} {s : String} (h : s ∈ E) :
    E.contains s = true := by
  simpa using h

theorem filter_contains_le (E l : List String) (hnd : l.Nodup) :
    (l.filter (fun s => E.contains s)).length ≤ E.length := by
  have hsub : l.filter (fun s => E.contains s) ⊆ E := by
    intro x hx
    exact contains_imp_mem (List.of_mem_filter hx)
  exact (List.subperm_of_subset (hnd.filter _) hsub).length_le

theorem slugLoop_not_mem (existing : List String) (base : String) :
    ∀ (fuel i : Nat) (slug : String),
      ((slug :: (List.range' i fuel).map (slugCandidate base)).filter
        (fun s => existing.contains s)).length ≤ fuel →
      existing.contains (slugLoop existing base fuel slug i) = false := by
  intro fuel
  induction fuel with
  | zero =>
    intro i slug h
    unfold slugLoop
    by_cases hc : existing.contains slug
    · exfalso
      simp [List.filter_cons, hc] at h
      exact h (contains_imp_mem hc)
    · simpa using hc
  | succ fuel ih =>
    intro i slug h
    unfold slugLoop
    by_cases hc : existing.contains slug
    · simp only [hc, if_true]
      have hr : List.range' i (fuel + 1) = i :: List.range' (i + 1) fuel :=
        List.range'_succ i fuel 1
      rw [hr] at h
      simp only [List.map_cons, List.filter_cons, hc, if_true, List.length_cons] at h
      apply ih (i + 1) (slugCandidate base i)
      simp only [List.filter_cons]
      omega
    · simp only [hc, if_false]
      simpa using hc

theorem slugLoop_shape (existing : List String) (base : String) :
    ∀ (fuel i : Nat) (slug : String),
      slugLoop existing base fuel slug i = slug ∨
      ∃ k, i ≤ k ∧ slugLoop existing base fuel slug i = slugCandidate base k := by
  intro fuel
  induction fuel with
  | zero => intro i slug; left; rfl
  | succ fuel ih =>
    intro i slug
    unfold slugLoop
    by_cases hc : existing.contains slug
    · simp only [hc, if_true]
      rcases ih (i + 1) (slugCandidate base i) with h | ⟨k, hk, h⟩
      · right; exact ⟨i, Nat.le_refl i, h⟩
      · right; exact ⟨k, by omega, h⟩
    · simp only [hc, if_false]
      left; rfl

theorem freshSlug_spec (existing : List String) (base : String) :
    existing.contains (freshSlug existing base) = false ∧
    (freshSlug existing base = base ∨
      ∃ k, 2 ≤ k ∧ freshSlug existing base = slugCandidate base k) ∧
    (existing.contains base = true →
      ∃ k, 2 ≤ k ∧ freshSlug existing base = slugCandidate base k) := by
  refine ⟨?_, ?_, ?_⟩
  · apply slugLoop_not_mem
    calc ((base :: (List.range' 2 (existing.length + 1)).map (slugCandidate base)).filter
        (fun s => existing.contains s)).length
        ≤ existing.length :=
          filter_contains_le existing _ (slugCands_nodup base 2 (existing.length + 1))
      _ ≤ existing.length + 1 := Nat.le_succ _
  · rcases slugLoop_shape existing base (existing.length + 1) 2 base with h | ⟨k, hk, h⟩
    · left; exact h
    · right; exact ⟨k, hk, h⟩
  · intro hbase
    unfold freshSlug slugLoop
    simp only [hbase, if_true]
    rcases slugLoop_shape existing base existing.length 3 (slugCandidate base 2) with
      h | ⟨k, hk, h⟩
    · exact ⟨2, by omega, h⟩
    · exact ⟨k, by omega, h⟩

theorem freshSlug_base_or_contains (existing : List String) (base : String) :
    freshSlug existing base = base ∨ existing.contains base = true := by
  unfold freshSlug slugLoop
  by_cases hc : existing.contains base
  · right; exact hc
  · left; rw [if_neg hc]

/-- C5: the created project's slug is the `slugify` normalisation of the
name (lower-case, whitespace runs to `_`, other characters stripped,
60-char cap) possibly extended by a `_k` counter; it never collides with
an existing slug; and when a second project is created whose name
normalises to the same slug, the second receives a distinct slug of the
form `<base>_k` with `k ≥ 2`. -/
theorem create_project_slug_collision (st : AppState) (n1 n2 d1 s1 d2 s2 : String)
    (id1 id2 : Nat)
    (hn1 : pyStrip n1 ≠ "")
    (hn2 : pyStrip n2 ≠ "")
    (hslug : slugify (pyStrip n2) = slugify (pyStrip n1))
    (hfresh1 : ∀ p ∈ st.projects, p.name ≠ pyStrip n1)
    (hfresh2 : ∀ p ∈ st.projects, p.name ≠ pyStrip n2)
    (hnames : pyStrip n2 ≠ pyStrip n1) :
    ∃ slug1 slug2,
      admin_create_project n1 d1 s1 id1 st =
        (.success "Proyecto creado.",
          { st with projects := st.projects ++
              [Project.mk id1 (pyStrip n1) slug1 "" (some (pyStrip d1)) (pyStrip s1)] }) ∧
      admin_create_project n2 d2 s2 id2
          { st with projects := st.projects ++
              [Project.mk id1 (pyStrip n1) slug1 "" (some (pyStrip d1)) (pyStrip s1)] } =
        (.success "Proyecto creado.",
          { st with projects := (st.projects ++
              [Project.mk id1 (pyStrip n1) slug1 "" (some (pyStrip d1)) (pyStrip s1)]) ++
              [Project.mk id2 (pyStrip n2) slug2 "" (some (pyStrip d2)) (pyStrip s2)] }) ∧
      slug1 ∉ st.projects.map Project.slug ∧
      slug2 ∉ st.projects.map Project.slug ++ [slug1] ∧
      slug2 ≠ slug1 ∧
      (slug1 = slugify (pyStrip n1) ∨
        ∃ k, 2 ≤ k ∧ slug1 = slugCandidate (slugify (pyStrip n1)) k) ∧
      (∃ k, 2 ≤ k ∧ slug2 = slugCandidate (slugify (pyStrip n2)) k) := by
  have hspec1 := freshSlug_spec (st.projects.map Project.slug) (slugify (pyStrip n1))
  have hspec2 := freshSlug_spec
    (st.projects.map Project.slug ++
      [freshSlug (st.projects.map Project.slug) (slugify (pyStrip n1))])
    (slugify (pyStrip n2))
  refine ⟨freshSlug (st.projects.map Project.slug) (slugify (pyStrip n1)),
    freshSlug (st.projects.map Project.slug ++
      [freshSlug (st.projects.map Project.slug) (slugify (pyStrip n1))])
      (slugify (pyStrip n2)), ?_, ?_, ?_, ?_, ?_, ?_, ?_⟩
  · unfold admin_create_project
    rw [if_neg hn1]
    have hany : (st.projects.any (fun p => p.name == pyStrip n1)) = false := by
      rw [List.any_eq_false]
      intro p hp
      simpa using hfresh1 p hp
    simp [hany, freshSlug]
  · unfold admin_create_project
    rw [if_neg hn2]
    have hany2 : ((st.projects ++
        [Project.mk id1 (pyStrip n1)
          (freshSlug (st.projects.map Project.slug) (slugify (pyStrip n1))) ""
          (some (pyStrip d1)) (pyStrip s1)]).any (fun p => p.name == pyStrip n2)) = false := by
      rw [List.any_eq_false]
      intro p hp
      rcases List.mem_append.1 hp with h | h
      · simpa using hfresh2 p h
      · simp at h
        subst h
        simpa using hnames.symm
    simp only [hany2, Bool.false_eq_true, if_false]
    simp [List.map_append]
  · intro hmem
    have h1 := mem_imp_contains hmem
    rw [hspec1.1] at h1
    simp at h1
  · intro hmem
    have h1 := mem_imp_contains hmem
    rw [hspec2.1] at h1
    simp at h1
  · intro heq
    have hm : freshSlug
        (st.projects.map Project.slug ++
          [freshSlug (st.projects.map Project.slug) (slugify (pyStrip n1))])
        (slugify (pyStrip n2)) ∈
        st.projects.map Project.slug ++
          [freshSlug (st.projects.map Project.slug) (slugify (pyStrip n1))] := by
      rw [heq]
      exact List.mem_append_right _ (List.mem_singleton_self _)
    have h1 := mem_imp_contains hm
    rw [hspec2.1] at h1
    simp at h1
  · exact hspec1.2.1
  · apply hspec2.2.2
    have hmem : slugify (pyStrip n2) ∈ st.projects.map Project.slug ++
        [freshSlug (st.projects.map Project.slug) (slugify (pyStrip n1))] := by
      rw [hslug]
      rcases hspec1.2.1 with h | ⟨k, _, h⟩
      · exact List.mem_append_right _ (List.mem_singleton.2 h.symm)
      · rcases freshSlug_base_or_contains (st.projects.map Project.slug)
          (slugify (pyStrip n1)) with h2 | h2
        · exact absurd (h.symm.trans h2) (slugCandidate_ne_base _ k)
        · exact List.mem_append_left _ (contains_imp_mem h2)
    exact mem_imp_contains hmem

theorem create_project_slug_collision_witness :
    ∃ slug1 slug2,
      admin_create_project "Roof A" "" "pendiente" 2
        (AppState.mk []
          [Project.mk 1 "General" "general" "" (some "Proyecto por defecto") "pendiente"]
          [] (fun _ => false)) =
        (.success "Proyecto creado.",
          { AppState.mk []
              [Project.mk 1 "General" "general" "" (some "Proyecto por defecto") "pendiente"]
              [] (fun _ => false) with
            projects :=
              [Project.mk 1 "General" "general" "" (some "Proyecto por defecto") "pendiente"] ++
              [Project.mk 2 (pyStrip "Roof A") slug1 "" (some (pyStrip "")) (pyStrip "pendiente")] }) ∧
      admin_create_project "Roof A!!" "" "pendiente" 3
          { AppState.mk []
              [Project.mk 1 "General" "general" "" (some "Proyecto por defecto") "pendiente"]
              [] (fun _ => false) with
            projects :=
              [Project.mk 1 "General" "general" "" (some "Proyecto por defecto") "pendiente"] ++
              [Project.mk 2 (pyStrip "Roof A") slug1 "" (some (pyStrip "")) (pyStrip "pendiente")] } =
        (.success "Proyecto creado.",
          { AppState.mk []
              [Project.mk 1 "General" "general" "" (some "Proyecto por defecto") "pendiente"]
              [] (fun _ => false) with
            projects :=
              ([Project.mk 1 "General" "general" "" (some "Proyecto por defecto") "pendiente"] ++
                [Project.mk 2 (pyStrip "Roof A") slug1 "" (some (pyStrip "")) (pyStrip "pendiente")]) ++
              [Project.mk 3 (pyStrip "Roof A!!") slug2 "" (some (pyStrip "")) (pyStrip "pendiente")] }) ∧
      slug1 ∉ [Project.mk 1 "General" "general" "" (some "Proyecto por defecto")
        "pendiente"].map Project.slug ∧
      slug2 ∉ [Project.mk 1 "General" "general" "" (some "Proyecto por defecto")
        "pendiente"].map Project.slug ++ [slug1] ∧
      slug2 ≠ slug1 ∧
      (slug1 = slugify (pyStrip "Roof A") ∨
        ∃ k, 2 ≤ k ∧ slug1 = slugCandidate (slugify (pyStrip "Roof A")) k) ∧
      (∃ k, 2 ≤ k ∧ slug2 = slugCandidate (slugify (pyStrip "Roof A!!")) k) :=
  create_project_slug_collision
    (AppState.mk []
      [Project.mk 1 "General" "general" "" (some "Proyecto por defecto") "pendiente"]
      [] (fun _ => false))
    "Roof A" "Roof A!!" "" "pendiente" "" "pendiente" 2 3
    (by decide) (by decide) (by decide) (by decide) (by decide) (by decide)

/-! ## Claim C1: deleting a project relocates every photo into `general` -/

theorem relocatePhoto_shape (projSlug : String) (now : Nat) (panics : Bool)
    (fs : FileSet) (ph : Photo) :
    ∃ nm, (relocatePhoto projSlug now panics fs ph).1 = "general/" ++ nm := by
  unfold relocatePhoto
  by_cases h1 : photoOldFp projSlug ph ≠ "" ∧ fs (photoOldFp projSlug ph) = true
  · rw [if_pos h1]
    by_cases hcol : fs ("general/" ++ photoOldName projSlug now ph) = true
    · refine ⟨Nat.repr now ++ "_" ++ photoOldName projSlug now ph, ?_⟩
      cases panics <;> simp [hcol, String.append_assoc]
    · refine ⟨photoOldName projSlug now ph, ?_⟩
      cases panics <;> simp [hcol]
  · rw [if_neg h1]
    exact ⟨photoOldName projSlug now ph, rfl⟩

theorem relocateRow_id (generalId : Nat) (fp : String) (p : Photo) :
    (relocateRow generalId fp p).id = p.id := rfl

theorem deleteProjectLoop_ids (projSlug : String) (generalId now : Nat)
    (panics : Nat → Bool) :
    ∀ (S photos : List Photo) (fs : FileSet),
      ((deleteProjectLoop projSlug generalId now panics S (photos, fs)).1).map Photo.id =
        photos.map Photo.id := by
  intro S
  induction S with
  | nil => intro photos fs; rfl
  | cons ph rest ih =>
    intro photos fs
    unfold deleteProjectLoop
    rw [ih]
    rw [List.map_map]
    apply List.map_congr_left
    intro p _
    by_cases h : p.id = ph.id <;> simp [h, relocateRow]

theorem deleteProjectLoop_invariant (projSlug : String) (generalId now : Nat)
    (panics : Nat → Bool) :
    ∀ (S photos : List Photo) (fs : FileSet) (q : Photo),
      q ∈ (deleteProjectLoop projSlug generalId now panics S (photos, fs)).1 →
      (q.id ∈ S.map Photo.id →
        q.project_id = some generalId ∧
        ∃ nm, q.filepath = some ("general/" ++ nm) ∧
          q.filename = some (pyBasename ("general/" ++ nm))) ∧
      (q.id ∉ S.map Photo.id → q ∈ photos) := by
  intro S
  induction S with
  | nil =>
    intro photos fs q hq
    exact ⟨fun h => by simp at h, fun _ => hq⟩
  | cons ph rest ih =>
    intro photos fs q hq
    unfold deleteProjectLoop at hq
    have H := ih _ _ q hq
    constructor
    · intro hmem
      by_cases hqrest : q.id ∈ rest.map Photo.id
      · exact H.1 hqrest
      · have hqph : q.id = ph.id := by
          simp only [List.map_cons] at hmem
          rcases List.mem_cons.1 hmem with h | h
          · exact h
          · exact absurd h hqrest
        have hqp := H.2 hqrest
        obtain ⟨p0, hp0, hq0⟩ := List.mem_map.1 hqp
        by_cases hp : p0.id = ph.id
        · rw [if_pos hp] at hq0
          obtain ⟨nm, hnm⟩ := relocatePhoto_shape projSlug now (panics ph.id) fs ph
          subst hq0
          refine ⟨rfl, nm, ?_, ?_⟩
          · simp [relocateRow, hnm]
          · simp [relocateRow, hnm]
        · rw [if_neg hp] at hq0
          exact absurd (hq0 ▸ hqph) hp
    · intro hmem
      have h1 : q.id ∉ rest.map Photo.id := fun h => hmem (by simp [h])
      have h2 : q.id ≠ ph.id := fun h => hmem (by simp [h])
      have hqp := H.2 h1
      obtain ⟨p0, hp0, hq0⟩ := List.mem_map.1 hqp
      by_cases hp : p0.id = ph.id
      · rw [if_pos hp] at hq0
        exfalso
        apply h2
        rw [← hq0]
        simpa [relocateRow] using hp
      · rw [if_neg hp] at hq0
        rw [← hq0]
        exact hp0

theorem now_prefixed_ne (now : Nat) (nm : String) :
    "general/" ++ Nat.repr now ++ "_" ++ nm ≠ "general/" ++ nm := by
  intro h
  have hlen := congrArg String.length h
  simp [String.length_append] at hlen
  have := repr_len_pos now
  omega

/-- Behaviour of one relocation when the source file exists: without a
collision the file is moved to `general/<old_name>`; on a collision the
row target is the timestamp-prefixed name and the colliding file at
`general/<old_name>` is left in place (not overwritten). -/
theorem relocatePhoto_moves (projSlug : String) (now : Nat) (fs2 : FileSet) (ph2 : Photo)
    (h1 : photoOldFp projSlug ph2 ≠ "")
    (h2 : fs2 (photoOldFp projSlug ph2) = true) :
    (fs2 ("general/" ++ photoOldName projSlug now ph2) = false →
      relocatePhoto projSlug now false fs2 ph2 =
        ("general/" ++ photoOldName projSlug now ph2,
          fsMove fs2 (photoOldFp projSlug ph2)
            ("general/" ++ photoOldName projSlug now ph2))) ∧
    (fs2 ("general/" ++ photoOldName projSlug now ph2) = true →
      (relocatePhoto projSlug now false fs2 ph2).1 =
        "general/" ++ Nat.repr now ++ "_" ++ photoOldName projSlug now ph2 ∧
      (photoOldFp projSlug ph2 ≠ "general/" ++ photoOldName projSlug now ph2 →
        (relocatePhoto projSlug now false fs2 ph2).2
          ("general/" ++ photoOldName projSlug now ph2) = true)) := by
  constructor
  · intro hcol
    unfold relocatePhoto
    rw [if_pos ⟨h1, h2⟩]
    simp [hcol]
  · intro hcol
    refine ⟨?_, ?_⟩
    · unfold relocatePhoto
      rw [if_pos ⟨h1, h2⟩]
      simp [hcol]
    · intro hne
      have hpair : (relocatePhoto projSlug now false fs2 ph2).2 =
          fsMove fs2 (photoOldFp projSlug ph2)
            ("general/" ++ Nat.repr now ++ "_" ++ photoOldName projSlug now ph2) := by
        unfold relocatePhoto
        rw [if_pos ⟨h1, h2⟩]
        simp [hcol]
      rw [hpair]
      unfold fsMove
      rw [if_neg (fun h => now_prefixed_ne now (photoOldName projSlug now ph2) h.symm),
        if_neg (Ne.symm hne)]
      exact hcol

/-- C1: on a project that exists and is not `general` (with the `general`
row present), `admin_delete_project` succeeds; the project row is deleted;
every photo row of the project — regardless of whether its file move
succeeded (`panics` is arbitrary) — is rewritten to the `general` project
with `filepath` of the form `general/<name>` and `filename` kept in sync
as its basename; photos of other projects are untouched; and the per-photo
move resolves a destination collision by prefixing the timestamp instead
of overwriting (final conjunct, via `relocatePhoto_moves`). -/
theorem delete_project_relocates (st : AppState) (projectId now : Nat)
    (panics : Nat → Bool) (proj general : Project)
    (hfind : findProject st.projects projectId = some proj)
    (hslug : proj.slug ≠ "general")
    (hgen : findProjectBySlug st.projects "general" = some general)
    (hnodup : (st.photos.map Photo.id).Nodup) :
    (admin_delete_project projectId now panics st).1 =
      .success "Proyecto eliminado. Las fotos se movieron a General." ∧
    (admin_delete_project projectId now panics st).2.projects =
      st.projects.filter (fun p => !(p.id == projectId)) ∧
    (∀ ph ∈ st.photos, ph.project_id = some projectId →
      ∃ q ∈ (admin_delete_project projectId now panics st).2.photos,
        q.id = ph.id ∧ q.project_id = some general.id ∧
        ∃ nm, q.filepath = some ("general/" ++ nm) ∧
          q.filename = some (pyBasename ("general/" ++ nm))) ∧
    (∀ ph ∈ st.photos, ph.project_id ≠ some projectId →
      ph ∈ (admin_delete_project projectId now panics st).2.photos) ∧
    (∀ (fs2 : FileSet) (ph2 : Photo),
      photoOldFp proj.slug ph2 ≠ "" → fs2 (photoOldFp proj.slug ph2) = true →
      (fs2 ("general/" ++ photoOldName proj.slug now ph2) = false →
        relocatePhoto proj.slug now false fs2 ph2 =
          ("general/" ++ photoOldName proj.slug now ph2,
            fsMove fs2 (photoOldFp proj.slug ph2)
              ("general/" ++ photoOldName proj.slug now ph2))) ∧
      (fs2 ("general/" ++ photoOldName proj.slug now ph2) = true →
        (relocatePhoto proj.slug now false fs2 ph2).1 =
          "general/" ++ Nat.repr now ++ "_" ++ photoOldName proj.slug now ph2 ∧
        (photoOldFp proj.slug ph2 ≠ "general/" ++ photoOldName proj.slug now ph2 →
          (relocatePhoto proj.slug now false fs2 ph2).2
            ("general/" ++ photoOldName proj.slug now ph2) = true))) := by
  have hres : admin_delete_project projectId now panics st =
      (.success "Proyecto eliminado. Las fotos se movieron a General.",
        { st with
          projects := st.projects.filter (fun p => !(p.id == projectId)),
          photos := (deleteProjectLoop proj.slug general.id now panics
            (st.photos.filter (fun ph => ph.project_id == some projectId))
            (st.photos, st.fs)).1,
          fs := (deleteProjectLoop proj.slug general.id now panics
            (st.photos.filter (fun ph => ph.project_id == some projectId))
            (st.photos, st.fs)).2 }) := by
    unfold admin_delete_project
    simp only [hfind, hgen]
    rw [if_neg hslug]
  refine ⟨by rw [hres], by rw [hres], ?_, ?_,
    fun fs2 ph2 h1 h2 => relocatePhoto_moves proj.slug now fs2 ph2 h1 h2⟩
  · intro ph hph hproj
    have hmemT : ph ∈ st.photos.filter (fun p => p.project_id == some projectId) :=
      List.mem_filter.2 ⟨hph, by simp [hproj]⟩
    have hidT : ph.id ∈ (st.photos.filter
        (fun p => p.project_id == some projectId)).map Photo.id :=
      List.mem_map_of_mem Photo.id hmemT
    have hids := deleteProjectLoop_ids proj.slug general.id now panics
      (st.photos.filter (fun p => p.project_id == some projectId)) st.photos st.fs
    have hmem2 : ph.id ∈ ((deleteProjectLoop proj.slug general.id now panics
        (st.photos.filter (fun p => p.project_id == some projectId))
        (st.photos, st.fs)).1).map Photo.id := by
      rw [hids]
      exact List.mem_map_of_mem Photo.id hph
    obtain ⟨q, hqmem, hqid⟩ := List.mem_map.1 hmem2
    have hinv := deleteProjectLoop_invariant proj.slug general.id now panics
      (st.photos.filter (fun p => p.project_id == some projectId)) st.photos st.fs q hqmem
    have hshape := hinv.1 (by rw [hqid]; exact hidT)
    refine ⟨q, ?_, hqid, hshape.1, hshape.2⟩
    rw [hres]
    exact hqmem
  · intro ph hph hproj
    have hTid : ph.id ∉ (st.photos.filter
        (fun p => p.project_id == some projectId)).map Photo.id := by
      intro hmem
      obtain ⟨t, htmem, htid⟩ := List.mem_map.1 hmem
      have ht_photos : t ∈ st.photos := (List.mem_filter.1 htmem).1
      have hteq : t = ph := List.inj_on_of_nodup_map hnodup ht_photos hph htid
      have := (List.mem_filter.1 htmem).2
      rw [hteq] at this
      simp at this
      exact hproj this
    have hids := deleteProjectLoop_ids proj.slug general.id now panics
      (st.photos.filter (fun p => p.project_id == some projectId)) st.photos st.fs
    have hmem2 : ph.id ∈ ((deleteProjectLoop proj.slug general.id now panics
        (st.photos.filter (fun p => p.project_id == some projectId))
        (st.photos, st.fs)).1).map Photo.id := by
      rw [hids]
      exact List.mem_map_of_mem Photo.id hph
    obtain ⟨q, hqmem, hqid⟩ := List.mem_map.1 hmem2
    have hinv := deleteProjectLoop_invariant proj.slug general.id now panics
      (st.photos.filter (fun p => p.project_id == some projectId)) st.photos st.fs q hqmem
    have hq_photos := hinv.2 (by rw [hqid]; exact hTid)
    have hqeq : q = ph := List.inj_on_of_nodup_map hnodup hq_photos hph hqid
    rw [hres, ← hqeq]
    exact hqmem

theorem delete_project_relocates_witness :
    (admin_delete_project 2 7 (fun _ => false)
      (AppState.mk []
        [Project.mk 1 "General" "general" "" none "pendiente",
          Project.mk 2 "Roof" "roof" "" none "pendiente"]
        [Photo.mk 1 (some "roof/a.jpg") (some "a.jpg") "A" none "" none (some 2)]
        (fun p => p == "roof/a.jpg"))).1 =
      .success "Proyecto eliminado. Las fotos se movieron a General." ∧
    (admin_delete_project 2 7 (fun _ => false)
      (AppState.mk []
        [Project.mk 1 "General" "general" "" none "pendiente",
          Project.mk 2 "Roof" "roof" "" none "pendiente"]
        [Photo.mk 1 (some "roof/a.jpg") (some "a.jpg") "A" none "" none (some 2)]
        (fun p => p == "roof/a.jpg"))).2.projects =
      [Project.mk 1 "General" "general" "" none "pendiente",
        Project.mk 2 "Roof" "roof" "" none "pendiente"].filter
        (fun p => !(p.id == 2)) ∧
    (∀ ph ∈ [Photo.mk 1 (some "roof/a.jpg") (some "a.jpg") "A" none "" none (some 2)],
      ph.project_id = some 2 →
      ∃ q ∈ (admin_delete_project 2 7 (fun _ => false)
        (AppState.mk []
          [Project.mk 1 "General" "general" "" none "pendiente",
            Project.mk 2 "Roof" "roof" "" none "pendiente"]
          [Photo.mk 1 (some "roof/a.jpg") (some "a.jpg") "A" none "" none (some 2)]
          (fun p => p == "roof/a.jpg"))).2.photos,
        q.id = ph.id ∧
        q.project_id = some (Project.mk 1 "General" "general" "" none "pendiente").id ∧
        ∃ nm, q.filepath = some ("general/" ++ nm) ∧
          q.filename = some (pyBasename ("general/" ++ nm))) ∧
    (∀ ph ∈ [Photo.mk 1 (some "roof/a.jpg") (some "a.jpg") "A" none "" none (some 2)],
      ph.project_id ≠ some 2 →
      ph ∈ (admin_delete_project 2 7 (fun _ => false)
        (AppState.mk []
          [Project.mk 1 "General" "general" "" none "pendiente",
            Project.mk 2 "Roof" "roof" "" none "pendiente"]
          [Photo.mk 1 (some "roof/a.jpg") (some "a.jpg") "A" none "" none (some 2)]
          (fun p => p == "roof/a.jpg"))).2.photos) ∧
    (∀ (fs2 : FileSet) (ph2 : Photo),
      photoOldFp (Project.mk 2 "Roof" "roof" "" none "pendiente").slug ph2 ≠ "" →
      fs2 (photoOldFp (Project.mk 2 "Roof" "roof" "" none "pendiente").slug ph2) = true →
      (fs2 ("general/" ++ photoOldName (Project.mk 2 "Roof" "roof" "" none "pendiente").slug
          7 ph2) = false →
        relocatePhoto (Project.mk 2 "Roof" "roof" "" none "pendiente").slug 7 false fs2 ph2 =
          ("general/" ++ photoOldName (Project.mk 2 "Roof" "roof" "" none "pendiente").slug
              7 ph2,
            fsMove fs2 (photoOldFp (Project.mk 2 "Roof" "roof" "" none "pendiente").slug ph2)
              ("general/" ++ photoOldName
                (Project.mk 2 "Roof" "roof" "" none "pendiente").slug 7 ph2))) ∧
      (fs2 ("general/" ++ photoOldName (Project.mk 2 "Roof" "roof" "" none "pendiente").slug
          7 ph2) = true →
        (relocatePhoto (Project.mk 2 "Roof" "roof" "" none "pendiente").slug 7 false
            fs2 ph2).1 =
          "general/" ++ Nat.repr 7 ++ "_" ++ photoOldName
            (Project.mk 2 "Roof" "roof" "" none "pendiente").slug 7 ph2 ∧
        (photoOldFp (Project.mk 2 "Roof" "roof" "" none "pendiente").slug ph2 ≠
            "general/" ++ photoOldName
              (Project.mk 2 "Roof" "roof" "" none "pendiente").slug 7 ph2 →
          (relocatePhoto (Project.mk 2 "Roof" "roof" "" none "pendiente").slug 7 false
              fs2 ph2).2
            ("general/" ++ photoOldName
              (Project.mk 2 "Roof" "roof" "" none "pendiente").slug 7 ph2) = true))) :=
  delete_project_relocates
    (AppState.mk []
      [Project.mk 1 "General" "general" "" none "pendiente",
        Project.mk 2 "Roof" "roof" "" none "pendiente"]
      [Photo.mk 1 (some "roof/a.jpg") (some "a.jpg") "A" none "" none (some 2)]
      (fun p => p == "roof/a.jpg"))
    2 7 (fun _ => false)
    (Project.mk 2 "Roof" "roof" "" none "pendiente")
    (Project.mk 1 "General" "general" "" none "pendiente")
    rfl (by decide) rfl (by decide)

/-! ## Claim C8: the dashboard WHERE clause is the spec's conjunctive
filter (wildcard-free queries), newest id first -/

theorem likeMatch_nil (s : List Char) : likeMatch [] s = s.isEmpty := by
  unfold likeMatch
  rfl

theorem likeMatch_cons (p : Char) (ps s : List Char) :
    likeMatch (p :: ps) s =
      if p == '%' then
        likeMatch ps s ||
          (match s with
           | [] => false
           | _ :: s' => likeMatch (p :: ps) s')
      else
        match s with
        | [] => false
        | c :: s' =>
          if p == '_' then likeMatch ps s'
          else (p.toLower == c.toLower) && likeMatch ps s' := by
  conv_lhs => unfold likeMatch

theorem likeMatch_percent (ps : List Char) :
    ∀ s, likeMatch ('%' :: ps) s = true ↔ ∃ n, likeMatch ps (s.drop n) = true := by
  intro s
  induction s with
  | nil =>
    rw [likeMatch_cons]
    simp only [beq_self_eq_true, if_true, Bool.or_false]
    constructor
    · intro h
      exact ⟨0, h⟩
    · rintro ⟨n, hn⟩
      simpa using hn
  | cons c s' ih =>
    rw [likeMatch_cons]
    simp only [beq_self_eq_true, if_true, Bool.or_eq_true]
    constructor
    · intro h
      rcases h with h1 | h2
      · exact ⟨0, h1⟩
      · obtain ⟨n, hn⟩ := ih.1 h2
        exact ⟨n + 1, hn⟩
    · rintro ⟨n, hn⟩
      cases n with
      | zero => exact Or.inl hn
      | succ n => exact Or.inr (ih.2 ⟨n, hn⟩)

theorem likeMatch_percent_only : ∀ s, likeMatch ['%'] s = true := by
  intro s
  induction s with
  | nil =>
    rw [likeMatch_cons]
    simp [likeMatch_nil]
  | cons c s' ih =>
    rw [likeMatch_cons]
    simp only [beq_self_eq_true, if_true, Bool.or_eq_true]
    exact Or.inr ih

theorem likeMatch_plain (q : List Char) :
    ∀ s, (∀ c ∈ q, c ≠ '%' ∧ c ≠ '_') →
      (likeMatch (q ++ ['%']) s = true ↔
        ∃ t, s.map Char.toLower = q.map Char.toLower ++ t) := by
  induction q with
  | nil =>
    intro s _
    simp only [List.nil_append, List.map_nil]
    constructor
    · intro _
      exact ⟨s.map Char.toLower, by simp⟩
    · intro _
      exact likeMatch_percent_only s
  | cons p q' ih =>
    intro s hq
    have hp := hq p (List.mem_cons_self p q')
    have h1 : (p == '%') = false := by simp [hp.1]
    have h2 : (p == '_') = false := by simp [hp.2]
    cases s with
    | nil =>
      rw [List.cons_append, likeMatch_cons]
      rw [if_neg (by simp [h1])]
      simp
    | cons c s' =>
      rw [List.cons_append, likeMatch_cons]
      rw [if_neg (by simp [h1])]
      show (if p == '_' then likeMatch (q' ++ ['%']) s'
        else (p.toLower == c.toLower) && likeMatch (q' ++ ['%']) s') = true ↔ _
      rw [if_neg (by simp [h2])]
      rw [Bool.and_eq_true]
      constructor
      · rintro ⟨hc, hrest⟩
        obtain ⟨t, ht⟩ :=
          (ih s' (fun d hd => hq d (List.mem_cons_of_mem p hd))).1 hrest
        refine ⟨t, ?_⟩
        simp only [List.map_cons, List.cons_append]
        exact List.cons_eq_cons.2 ⟨(beq_iff_eq.1 hc).symm, ht⟩
      · rintro ⟨t, ht⟩
        simp only [List.map_cons, List.cons_append, List.cons_eq_cons] at ht
        obtain ⟨hc, ht'⟩ := ht
        refine ⟨by simp [hc], ?_⟩
        exact (ih s' (fun d hd => hq d (List.mem_cons_of_mem p hd))).2 ⟨t, ht'⟩

theorem startsList_nil (needle : List Char) :
    startsList needle [] = needle.isEmpty := by
  cases needle <;> rfl

theorem startsList_iff (needle : List Char) :
    ∀ hay, startsList needle hay = true ↔ ∃ t, hay = needle ++ t := by
  induction needle with
  | nil =>
    intro hay
    simp only [startsList, List.nil_append]
    constructor
    · intro _
      exact ⟨hay, rfl⟩
    · intro _
      trivial
  | cons a l1 ih =>
    intro hay
    cases hay with
    | nil =>
      simp [startsList]
    | cons b l2 =>
      simp only [startsList, Bool.and_eq_true, beq_iff_eq, List.cons_append,
        List.cons_eq_cons]
      constructor
      · rintro ⟨hab, hrest⟩
        obtain ⟨t, ht⟩ := (ih l2).1 hrest
        exact ⟨t, hab.symm, ht⟩
      · rintro ⟨t, hab, ht⟩
        exact ⟨hab.symm, (ih l2).2 ⟨t, ht⟩⟩

theorem hasSub_iff (needle : List Char) :
    ∀ hay, hasSub needle hay = true ↔ ∃ n, startsList needle (hay.drop n) = true := by
  intro hay
  induction hay with
  | nil =>
    simp only [hasSub, startsList_nil]
    constructor
    · intro h
      exact ⟨0, by simpa [startsList_nil] using h⟩
    · rintro ⟨n, hn⟩
      simpa [startsList_nil] using hn
  | cons c rest ih =>
    simp only [hasSub, Bool.or_eq_true]
    constructor
    · intro h
      rcases h with h1 | h2
      · exact ⟨0, h1⟩
      · obtain ⟨n, hn⟩ := ih.1 h2
        exact ⟨n + 1, hn⟩
    · rintro ⟨n, hn⟩
      cases n with
      | zero => exact Or.inl hn
      | succ n => exact Or.inr (ih.2 ⟨n, hn⟩)

theorem like_eq_hasSub (q s : String) (hw : noWildcard q = true) :
    likeMatch ('%' :: q.data ++ ['%']) s.data =
      hasSub (lowerStr q).data (lowerStr s).data := by
  have hq : ∀ c ∈ q.data, c ≠ '%' ∧ c ≠ '_' := by
    intro c hc
    have h := List.all_eq_true.1 hw c hc
    rw [Bool.and_eq_true, Bool.not_eq_true', Bool.not_eq_true'] at h
    exact ⟨by simpa using h.1, by simpa using h.2⟩
  apply Bool.coe_iff_coe.1
  constructor
  · intro h
    obtain ⟨n, hn⟩ := (likeMatch_percent (q.data ++ ['%']) s.data).1 h
    obtain ⟨t, ht⟩ := (likeMatch_plain q.data (s.data.drop n) hq).1 hn
    apply (hasSub_iff (lowerStr q).data (lowerStr s).data).2
    refine ⟨n, (startsList_iff _ _).2 ⟨t, ?_⟩⟩
    show (s.data.map Char.toLower).drop n = q.data.map Char.toLower ++ t
    rw [← List.map_drop]
    exact ht
  · intro h
    obtain ⟨n, hn⟩ := (hasSub_iff (lowerStr q).data (lowerStr s).data).1 h
    obtain ⟨t, ht⟩ := (startsList_iff _ _).1 hn
    apply (likeMatch_percent (q.data ++ ['%']) s.data).2
    refine ⟨n, (likeMatch_plain q.data (s.data.drop n) hq).2 ⟨t, ?_⟩⟩
    rw [List.map_drop]
    exact ht

theorem dashboardWhere_eq_specWhere (q : String) (pid : Option Nat) (df dt : String)
    (ph : Photo) (hw : noWildcard q = true) :
    dashboardWhere q pid df dt ph = specWhere q pid df dt ph := by
  unfold dashboardWhere specWhere
  rw [like_eq_hasSub q ph.display_name hw]
  cases hd : ph.description with
  | none => rfl
  | some d =>
    dsimp only
    rw [like_eq_hasSub q d hw]

theorem insertByIdDesc_perm (ph : Photo) :
    ∀ l : List Photo, (insertByIdDesc ph l).Perm (ph :: l) := by
  intro l
  induction l with
  | nil => exact List.Perm.refl _
  | cons q rest ih =>
    unfold insertByIdDesc
    by_cases h : q.id ≤ ph.id
    · rw [if_pos h]
    · rw [if_neg h]
      exact (ih.cons q).trans (List.Perm.swap ph q rest)

theorem sortByIdDesc_perm (l : List Photo) : (sortByIdDesc l).Perm l := by
  induction l with
  | nil => exact List.Perm.refl _
  | cons a rest ih =>
    show (insertByIdDesc a (sortByIdDesc rest)).Perm (a :: rest)
    exact (insertByIdDesc_perm a (sortByIdDesc rest)).trans (ih.cons a)

theorem insertByIdDesc_sorted (ph : Photo) :
    ∀ l : List Photo, l.Pairwise (fun a b => b.id ≤ a.id) →
      (insertByIdDesc ph l).Pairwise (fun a b => b.id ≤ a.id) := by
  intro l
  induction l with
  | nil => intro _; simp [insertByIdDesc]
  | cons q rest ih =>
    intro h
    unfold insertByIdDesc
    by_cases hle : q.id ≤ ph.id
    · rw [if_pos hle]
      refine List.Pairwise.cons ?_ h
      intro b hb
      rcases List.mem_cons.1 hb with hb | hb
      · rw [hb]; exact hle
      · exact Nat.le_trans (List.rel_of_pairwise_cons h hb) hle
    · rw [if_neg hle]
      refine List.Pairwise.cons ?_ (ih (List.Pairwise.sublist (List.sublist_cons_self q rest) h))
      intro b hb
      have hb' := (insertByIdDesc_perm ph rest).mem_iff.1 hb
      rcases List.mem_cons.1 hb' with hb' | hb'
      · rw [hb']; omega
      · exact List.rel_of_pairwise_cons h hb'

theorem sortByIdDesc_sorted (l : List Photo) :
    (sortByIdDesc l).Pairwise (fun a b => b.id ≤ a.id) := by
  induction l with
  | nil => simp [sortByIdDesc]
  | cons a rest ih =>
    show (insertByIdDesc a (sortByIdDesc rest)).Pairwise (fun a b => b.id ≤ a.id)
    exact insertByIdDesc_sorted a (sortByIdDesc rest) ih

/-- C8: for a wildcard-free query, the dashboard returns exactly the
photos satisfying the specification's conjunctive filters (case-insensitive
substring against display name or description, exact project id, inclusive
calendar-day bounds) — the result is the spec filter sorted by id, it is a
permutation of the spec-filtered table, and it is ordered newest id
first. -/
theorem dashboard_matches_spec (rawQ : String) (pid : Option Nat) (rawFrom rawTo : String)
    (st : AppState) (hw : noWildcard (pyStrip rawQ) = true) :
    dashboard rawQ pid rawFrom rawTo st =
      sortByIdDesc (st.photos.filter
        (specWhere (pyStrip rawQ) pid (pyStrip rawFrom) (pyStrip rawTo))) ∧
    (dashboard rawQ pid rawFrom rawTo st).Perm
      (st.photos.filter (specWhere (pyStrip rawQ) pid (pyStrip rawFrom) (pyStrip rawTo))) ∧
    (dashboard rawQ pid rawFrom rawTo st).Pairwise (fun a b => b.id ≤ a.id) := by
  have hfilter : st.photos.filter
      (dashboardWhere (pyStrip rawQ) pid (pyStrip rawFrom) (pyStrip rawTo)) =
      st.photos.filter
        (specWhere (pyStrip rawQ) pid (pyStrip rawFrom) (pyStrip rawTo)) :=
    List.filter_congr (fun ph _ =>
      dashboardWhere_eq_specWhere (pyStrip rawQ) pid (pyStrip rawFrom) (pyStrip rawTo) ph hw)
  have hdash : dashboard rawQ pid rawFrom rawTo st =
      sortByIdDesc (st.photos.filter
        (specWhere (pyStrip rawQ) pid (pyStrip rawFrom) (pyStrip rawTo))) := by
    unfold dashboard
    rw [hfilter]
  refine ⟨hdash, ?_, ?_⟩
  · rw [hdash]
    exact sortByIdDesc_perm _
  · rw [hdash]
    exact sortByIdDesc_sorted _

theorem dashboard_matches_spec_witness :
    dashboard "Panel" none "" ""
      (AppState.mk [] []
        [Photo.mk 1 (some "roof/p1.jpg") (some "p1.jpg") "Panel 1" (some "north side")
          "2024-05-01 10:00:00" none (some 2),
         Photo.mk 2 (some "general/x.jpg") (some "x.jpg") "Other" none
          "2024-05-02 09:00:00" none (some 1)]
        (fun _ => false)) =
      sortByIdDesc
        ([Photo.mk 1 (some "roof/p1.jpg") (some "p1.jpg") "Panel 1" (some "north side")
            "2024-05-01 10:00:00" none (some 2),
          Photo.mk 2 (some "general/x.jpg") (some "x.jpg") "Other" none
            "2024-05-02 09:00:00" none (some 1)].filter
          (specWhere (pyStrip "Panel") none (pyStrip "") (pyStrip ""))) ∧
    (dashboard "Panel" none "" ""
      (AppState.mk [] []
        [Photo.mk 1 (some "roof/p1.jpg") (some "p1.jpg") "Panel 1" (some "north side")
          "2024-05-01 10:00:00" none (some 2),
         Photo.mk 2 (some "general/x.jpg") (some "x.jpg") "Other" none
          "2024-05-02 09:00:00" none (some 1)]
        (fun _ => false))).Perm
      ([Photo.mk 1 (some "roof/p1.jpg") (some "p1.jpg") "Panel 1" (some "north side")
          "2024-05-01 10:00:00" none (some 2),
        Photo.mk 2 (some "general/x.jpg") (some "x.jpg") "Other" none
          "2024-05-02 09:00:00" none (some 1)].filter
        (specWhere (pyStrip "Panel") none (pyStrip "") (pyStrip ""))) ∧
    (dashboard "Panel" none "" ""
      (AppState.mk [] []
        [Photo.mk 1 (some "roof/p1.jpg") (some "p1.jpg") "Panel 1" (some "north side")
          "2024-05-01 10:00:00" none (some 2),
         Photo.mk 2 (some "general/x.jpg") (some "x.jpg") "Other" none
          "2024-05-02 09:00:00" none (some 1)]
        (fun _ => false))).Pairwise (fun a b => b.id ≤ a.id) :=
  dashboard_matches_spec "Panel" none "" ""
    (AppState.mk [] []
      [Photo.mk 1 (some "roof/p1.jpg") (some "p1.jpg") "Panel 1" (some "north side")
        "2024-05-01 10:00:00" none (some 2),
       Photo.mk 2 (some "general/x.jpg") (some "x.jpg") "Other" none
        "2024-05-02 09:00:00" none (some 1)]
      (fun _ => false))
    (by decide)
